import Mathlib

/-!
Shallow embedding of the color accessibility engine of
`src/color_palette.py`, together with the two `colorsys` conversions it
calls (`rgb_to_hls`, `hls_to_rgb`) and the fragment of Python semantics it
relies on (`int(s, 16)`, `str.lstrip('#')`, `str.split`, `'{:02x}'.format`,
`int()` truncation of a float).  All float arithmetic of the source that
stays in the rational field (HLS conversion, palette interpolation, index
selection) is modelled over `ℚ`; the WCAG relative luminance, which takes
the transcendental power `x ** 2.4`, is modelled over `ℝ`.  A Python
exception is modelled as `none` of an `Option` result.
-/

/-- Value of one hex digit as Python `int(-, 16)` accepts it:
`0`-`9`, `a`-`f`, `A`-`F` (by decimal character code). -/
def hexVal (c : Char) : Option ℕ :=
  if 48 ≤ c.toNat ∧ c.toNat ≤ 57 then some (c.toNat - 48)
  else if 97 ≤ c.toNat ∧ c.toNat ≤ 102 then some (c.toNat - 87)
  else if 65 ≤ c.toNat ∧ c.toNat ≤ 70 then some (c.toNat - 55)
  else none

/-- Python `str.strip()` whitespace characters (ASCII fragment):
space, tab, newline, carriage return, vertical tab, form feed. -/
def pyWs (c : Char) : Bool :=
  c.toNat == 32 || c.toNat == 9 || c.toNat == 10 || c.toNat == 13 ||
    c.toNat == 11 || c.toNat == 12

/-- Strip leading and trailing whitespace, as Python `int` does before
parsing a numeric string. -/
def stripWs (l : List Char) : List Char :=
  ((l.dropWhile pyWs).reverse.dropWhile pyWs).reverse

/-- Digits of a base-16 literal after the first one: Python allows a single
underscore between two digits. -/
def hexTail : List Char → ℕ → Option ℕ
  | [], acc => some acc
  | c :: rest, acc =>
    if c = '_' then
      match rest with
      | [] => none
      | c2 :: rest2 =>
        match hexVal c2 with
        | some d => hexTail rest2 (acc * 16 + d)
        | none => none
    else
      match hexVal c with
      | some d => hexTail rest (acc * 16 + d)
      | none => none

/-- A non-empty run of hex digits (with Python's underscore rule). -/
def hexDigits : List Char → Option ℕ
  | [] => none
  | c :: rest =>
    match hexVal c with
    | some d => hexTail rest d
    | none => none

/-- Python `int(s, 16)`: optional surrounding whitespace, optional sign,
optional `0x`/`0X` prefix (an underscore may follow it), then hex digits.
`none` models the `ValueError` the engine surfaces as its color-format
failure. -/
def pyIntHex16 (s : List Char) : Option ℤ :=
  let l0 := stripWs s
  let sign : ℤ :=
    match l0 with
    | c :: _ => if c = '-' then -1 else 1
    | [] => 1
  let l1 :=
    match l0 with
    | c :: rest => if c = '+' ∨ c = '-' then rest else l0
    | [] => l0
  let l2 :=
    match l1 with
    | a :: x :: rest =>
      if a = '0' ∧ (x = 'x' ∨ x = 'X') then
        match rest with
        | u :: rest2 => if u = '_' then rest2 else u :: rest2
        | [] => []
      else l1
    | _ => l1
  (hexDigits l2).map (fun v => sign * (v : ℤ))

/-- Python `hex_color.lstrip('#')`: drops every leading `#`. -/
def pyLstripHash (l : List Char) : List Char := l.dropWhile (· = '#')

/-- Source `hex_to_rgb`: strip leading `#`, then parse the three
2-character slices at offsets 0, 2 and 4 with `int(-, 16)`.  `none`
models the raised `ValueError` (the spec's `InvalidColorFormat`). -/
def hex_to_rgb (hex_color : String) : Option (ℤ × ℤ × ℤ) :=
  let t := pyLstripHash hex_color.data
  match pyIntHex16 (t.take 2), pyIntHex16 ((t.drop 2).take 2),
      pyIntHex16 ((t.drop 4).take 2) with
  | some r, some g, some b => some (r, g, b)
  | _, _, _ => none

/-- Python `int()` applied to a float: truncation toward zero. -/
def pytrunc (q : ℚ) : ℤ := if q < 0 then ⌈q⌉ else ⌊q⌋

/-- Lowercase hex digit character of a value below 16. -/
def hexDigitChar (n : ℕ) : Char :=
  if n < 10 then Char.ofNat (48 + n) else Char.ofNat (87 + n)

/-- Hex digit expansion of a natural number (`fuel` bounds the recursion;
`natToHex` passes `n` itself, which is always enough). -/
def natToHexAux : ℕ → ℕ → List Char
  | 0, n => [hexDigitChar (n % 16)]
  | fuel + 1, n =>
    if n < 16 then [hexDigitChar n]
    else natToHexAux fuel (n / 16) ++ [hexDigitChar (n % 16)]

/-- Lowercase hex digits of a natural number, most significant first. -/
def natToHex (n : ℕ) : List Char := natToHexAux n n

/-- Zero padding on the left up to a given width, as Python's `0`-fill. -/
def zfill (w : ℕ) (l : List Char) : List Char :=
  List.replicate (w - l.length) '0' ++ l

/-- Python `'{:02x}'.format(n)`: lowercase hex, zero-padded to width 2
(the sign of a negative value counts toward the width). -/
def format02x (n : ℤ) : List Char :=
  if n < 0 then '-' :: zfill 1 (natToHex n.natAbs) else zfill 2 (natToHex n.toNat)

/-- Source `rgb_to_hex`: `'#{:02x}{:02x}{:02x}'.format(int(r), int(g), int(b))`.
No rounding and no clamping happen: each channel is truncated toward zero
by `int()` and formatted as-is. -/
def rgb_to_hex (rgb : ℚ × ℚ × ℚ) : String :=
  ⟨'#' :: (format02x (pytrunc rgb.1) ++ format02x (pytrunc rgb.2.1) ++
    format02x (pytrunc rgb.2.2))⟩

/-- Helper `_v` of Python's `colorsys` (hue to channel value); `hue % 1.0`
is the fractional part. -/
def _v (m1 m2 hue : ℚ) : ℚ :=
  let h := hue - ⌊hue⌋
  if h < 1/6 then m1 + (m2 - m1) * h * 6
  else if h < 1/2 then m2
  else if h < 2/3 then m1 + (m2 - m1) * (2/3 - h) * 6
  else m1

/-- Python `colorsys.rgb_to_hls` (channels and the result's `l`, `s` in
`[0,1]`, `h` as a fraction of a turn). -/
def rgb_to_hls (r g b : ℚ) : ℚ × ℚ × ℚ :=
  let maxc := max r (max g b)
  let minc := min r (min g b)
  let sumc := maxc + minc
  let rangec := maxc - minc
  let l := sumc / 2
  if minc = maxc then (0, l, 0)
  else
    let s := if l ≤ 1/2 then rangec / sumc else rangec / (2 - sumc)
    let rc := (maxc - r) / rangec
    let gc := (maxc - g) / rangec
    let bc := (maxc - b) / rangec
    let h0 := if r = maxc then bc - gc
      else if g = maxc then 2 + rc - bc
      else 4 + gc - rc
    (h0 / 6 - ⌊h0 / 6⌋, l, s)

/-- Python `colorsys.hls_to_rgb`. -/
def hls_to_rgb (h l s : ℚ) : ℚ × ℚ × ℚ :=
  if s = 0 then (l, l, l)
  else
    let m2 := if l ≤ 1/2 then l * (1 + s) else l + s - l * s
    let m1 := 2 * l - m2
    (_v m1 m2 (h + 1/3), _v m1 m2 h, _v m1 m2 (h - 1/3))

/-- The fixed 12-entry categorical palette of the source. -/
def CATEGORICAL_PALETTE : List String :=
  ["#1e40af", "#059669", "#dc2626", "#7c3aed", "#ea580c", "#0891b2",
   "#be185d", "#16a34a", "#4f46e5", "#b45309", "#0369a1", "#9d174d"]

/-- The registered sequential scales (name to 9 anchor colors). -/
def SEQUENTIAL_SCALES : List (String × List String) :=
  [("blue", ["#dbeafe", "#bfdbfe", "#93c5fd", "#60a5fa", "#3b82f6",
             "#2563eb", "#1d4ed8", "#1e40af", "#1e3a8a"]),
   ("green", ["#d1fae5", "#a7f3d0", "#6ee7b7", "#34d399", "#10b981",
              "#059669", "#047857", "#065f46", "#064e3b"]),
   ("red", ["#fee2e2", "#fecaca", "#fca5a5", "#f87171", "#ef4444",
            "#dc2626", "#b91c1c", "#991b1b", "#7f1d1d"]),
   ("purple", ["#ede9fe", "#ddd6fe", "#c4b5fd", "#a78bfa", "#8b5cf6",
               "#7c3aed", "#6d28d9", "#5b21b6", "#4c1d95"])]

/-- The registered diverging scales. -/
def DIVERGING_SCALES : List (String × List String) :=
  [("blue_red", ["#1e40af", "#3b82f6", "#93c5fd", "#dbeafe", "#f8fafc",
                 "#fee2e2", "#fca5a5", "#ef4444", "#dc2626"]),
   ("green_purple", ["#059669", "#10b981", "#6ee7b7", "#d1fae5", "#f8fafc",
                     "#ede9fe", "#c4b5fd", "#8b5cf6", "#7c3aed"])]

/-- Python `s.startswith(pat)` on character lists. -/
def listStarts : List Char → List Char → Bool
  | _, [] => true
  | [], _ :: _ => false
  | c :: cs, p :: ps => c == p && listStarts cs ps

/-- Python `s.split('_')` (no maxsplit). -/
def splitUnd : List Char → List (List Char)
  | [] => [[]]
  | c :: rest =>
    if c = '_' then [] :: splitUnd rest
    else
      match splitUnd rest with
      | [] => [[c]]
      | g :: gs => (c :: g) :: gs

/-- Python `s.split('_', 1)`: at most one split, at the first underscore. -/
def splitUndOnce (l : List Char) : List (List Char) :=
  let pre := l.takeWhile (· ≠ '_')
  if pre.length = l.length then [l] else [pre, l.drop (pre.length + 1)]

/-- List comprehension with exceptions: `none` as soon as one element
raises (models the loop of `interpolate_colors` building its result). -/
def mapOption (f : ℕ → Option String) : List ℕ → Option (List String)
  | [] => some []
  | i :: rest =>
    match f i, mapOption f rest with
    | some c, some cs => some (c :: cs)
    | _, _ => none

/-- Body of the `interpolate_colors` loop for output slot `i`: position
`pos = i * scale_segments / segments`, anchors `int(pos)` and the next one
(capped at the last), interpolation factor `pos - int(pos)`; an exact
anchor hit (`factor == 0`) returns the anchor unchanged, otherwise each
RGB channel is interpolated linearly between the two parsed anchors. -/
def interpStep (color_scale : List String) (num_colors : ℕ) (i : ℕ) :
    Option String :=
  let segments : ℚ := (num_colors : ℚ) - 1
  let scale_segments : ℚ := (color_scale.length : ℚ) - 1
  let pos : ℚ := (i : ℚ) * scale_segments / segments
  let idx1 : ℕ := (pytrunc pos).toNat
  let idx2 : ℕ := min (idx1 + 1) (color_scale.length - 1)
  let factor : ℚ := pos - (idx1 : ℚ)
  if factor = 0 then some (color_scale.getD idx1 "")
  else
    match hex_to_rgb (color_scale.getD idx1 ""),
        hex_to_rgb (color_scale.getD idx2 "") with
    | some rgb1, some rgb2 =>
      some (rgb_to_hex
        ((rgb1.1 : ℚ) + factor * ((rgb2.1 : ℚ) - (rgb1.1 : ℚ)),
         (rgb1.2.1 : ℚ) + factor * ((rgb2.2.1 : ℚ) - (rgb1.2.1 : ℚ)),
         (rgb1.2.2 : ℚ) + factor * ((rgb2.2.2 : ℚ) - (rgb1.2.2 : ℚ))))
    | _, _ => none

/-- Source `interpolate_colors`: `none` models the `IndexError` on an
empty scale and the `ValueError` of an unparseable anchor; a single
requested color returns the first anchor; otherwise one `interpStep` per
output slot. -/
def interpolate_colors (color_scale : List String) (num_colors : ℕ) :
    Option (List String) :=
  if color_scale.length = 0 then none
  else if num_colors ≤ 1 then some [color_scale.getD 0 ""]
  else mapOption (interpStep color_scale num_colors) (List.range num_colors)

/-- Anchor selection of `get_chart_colors` when the requested count fits in
the scale: `indices = [int(i * (len(scale) - 1) / (num_colors - 1)) if
num_colors > 1 else 0 for i in range(num_colors)]`, then index the scale. -/
def seqSelect (scale : List String) (num_colors : ℕ) : List String :=
  ((List.range num_colors).map (fun i : ℕ =>
    if 1 < num_colors then
      (pytrunc ((i : ℚ) * ((scale.length : ℚ) - 1) / ((num_colors : ℚ) - 1))).toNat
    else 0)).map (fun i => scale.getD i "")

/-- The categorical branch (and the default fallback) of
`get_chart_colors`: cycle the fixed palette by modulo indexing. -/
def categoricalCycle (num_colors : ℕ) : List String :=
  (List.range num_colors).map
    (fun i => CATEGORICAL_PALETTE.getD (i % CATEGORICAL_PALETTE.length) "")

/-- Source `get_chart_colors`.  An unknown palette type or scale name falls
through to the categorical palette; a sequential/diverging request that
fits selects evenly spaced anchors, otherwise interpolates. -/
def get_chart_colors (num_colors : ℕ) (palette_type : String) :
    Option (List String) :=
  if palette_type = "categorical" then some (categoricalCycle num_colors)
  else if listStarts palette_type.data "sequential_".data then
    match List.lookup (⟨(splitUnd palette_type.data).getD 1 []⟩ : String)
        SEQUENTIAL_SCALES with
    | some scale =>
      if num_colors ≤ scale.length then some (seqSelect scale num_colors)
      else interpolate_colors scale num_colors
    | none => some (categoricalCycle num_colors)
  else if listStarts palette_type.data "diverging_".data then
    match List.lookup (⟨(splitUndOnce palette_type.data).getD 1 []⟩ : String)
        DIVERGING_SCALES with
    | some scale =>
      if num_colors ≤ scale.length then some (seqSelect scale num_colors)
      else interpolate_colors scale num_colors
    | none => some (categoricalCycle num_colors)
  else some (categoricalCycle num_colors)

/-- sRGB-to-linear transfer function of `get_luminance`, one channel
(channel already scaled to `[0,1]`).  `2.4` is the real power. -/
noncomputable def srgb_lin (c : ℝ) : ℝ :=
  if c ≤ 0.03928 then c / 12.92 else ((c + 0.055) / 1.055) ^ (2.4 : ℝ)

/-- Source `get_luminance` on a parsed RGB triple: channels scaled by 255,
linearised, then combined with the fixed WCAG weights. -/
noncomputable def get_luminance_rgb (p : ℤ × ℤ × ℤ) : ℝ :=
  0.2126 * srgb_lin ((p.1 : ℝ) / 255) + 0.7152 * srgb_lin ((p.2.1 : ℝ) / 255) +
    0.0722 * srgb_lin ((p.2.2 : ℝ) / 255)

/-- Source `get_luminance` on a hex string (`none` = the parse raised). -/
noncomputable def get_luminance (hex_color : String) : Option ℝ :=
  (hex_to_rgb hex_color).map get_luminance_rgb

/-- Body of `get_contrast_ratio` after both luminances are known: swap so
the lighter color comes first, then `(l1 + 0.05) / (l2 + 0.05)`. -/
noncomputable def contrast_of (lum1 lum2 : ℝ) : ℝ :=
  if lum1 < lum2 then (lum2 + 0.05) / (lum1 + 0.05)
  else (lum1 + 0.05) / (lum2 + 0.05)

/-- Source `get_contrast_ratio` on parsed RGB triples. -/
noncomputable def get_contrast_ratio_rgb (color1 color2 : ℤ × ℤ × ℤ) : ℝ :=
  contrast_of (get_luminance_rgb color1) (get_luminance_rgb color2)

/-- Source `is_accessible` on parsed RGB triples, as the proposition the
returned bool decides: threshold 4.5 for level `AA`, 7.0 for `AAA`, and
`False` for every other level string. -/
def is_accessible_rgb (color background : ℤ × ℤ × ℤ) (level : String) : Prop :=
  if level = "AA" then get_contrast_ratio_rgb color background ≥ 4.5
  else if level = "AAA" then get_contrast_ratio_rgb color background ≥ 7.0
  else False

/-- Source `is_accessible` on hex strings (`none` = a parse raised). -/
def is_accessible (color : String) (background : String := "#ffffff")
    (level : String := "AA") : Option Prop :=
  match hex_to_rgb color, hex_to_rgb background with
  | some c, some b => some (is_accessible_rgb c b level)
  | _, _ => none

/-- The string-level accessibility proposition: both colors parse and the
parsed pair meets the requested level. -/
def AccessibleS (color background level : String) : Prop :=
  match hex_to_rgb color, hex_to_rgb background with
  | some c, some b => is_accessible_rgb c b level
  | _, _ => False

/-- A parsed triple with every channel a byte value, as every 6-hex-digit
color yields. -/
def RGBInRange (p : ℤ × ℤ × ℤ) : Prop :=
  0 ≤ p.1 ∧ p.1 ≤ 255 ∧ 0 ≤ p.2.1 ∧ p.2.1 ≤ 255 ∧ 0 ≤ p.2.2 ∧ p.2.2 ≤ 255

instance (p : ℤ × ℤ × ℤ) : Decidable (RGBInRange p) := by
  unfold RGBInRange
  infer_instance

open scoped Classical

/-- The darkening loop of `get_accessible_variant` (`bg_lum > 0.5`): at
each of the up-to-10 steps lower the lightness by 0.05 (clamped at 0),
re-encode, and return the first candidate that is accessible.  Result
`some (some c)` = candidate `c` accepted, `some none` = the 10 steps were
exhausted, `none` = a re-parse inside `is_accessible` raised. -/
noncomputable def darkenLoop (h s : ℚ) (background level : String) :
    ℚ → ℕ → Option (Option String)
  | _, 0 => some none
  | l, n + 1 =>
    let l2 := max 0 (l - 0.05)
    let rgb := hls_to_rgb h l2 s
    let new_color := rgb_to_hex (rgb.1 * 255, rgb.2.1 * 255, rgb.2.2 * 255)
    match hex_to_rgb new_color, hex_to_rgb background with
    | some pc, some pq =>
      if is_accessible_rgb pc pq level then some (some new_color)
      else darkenLoop h s background level l2 n
    | _, _ => none

/-- The lightening loop of `get_accessible_variant` (dark background):
raise the lightness by 0.05 (clamped at 1) per step. -/
noncomputable def lightenLoop (h s : ℚ) (background level : String) :
    ℚ → ℕ → Option (Option String)
  | _, 0 => some none
  | l, n + 1 =>
    let l2 := min 1 (l + 0.05)
    let rgb := hls_to_rgb h l2 s
    let new_color := rgb_to_hex (rgb.1 * 255, rgb.2.1 * 255, rgb.2.2 * 255)
    match hex_to_rgb new_color, hex_to_rgb background with
    | some pc, some pq =>
      if is_accessible_rgb pc pq level then some (some new_color)
      else lightenLoop h s background level l2 n
    | _, _ => none

/-- Source `get_accessible_variant`: identity fast path when the color is
already accessible; otherwise a 10-step hill climb on HLS lightness, away
from the background's luminance side, falling back to pure black on a
light background and pure white on a dark one. -/
noncomputable def get_accessible_variant (color : String)
    (background : String := "#ffffff") (level : String := "AA") :
    Option String :=
  match hex_to_rgb color, hex_to_rgb background with
  | some p, some q =>
    if is_accessible_rgb p q level then some color
    else
      let hls := rgb_to_hls ((p.1 : ℚ) / 255) ((p.2.1 : ℚ) / 255) ((p.2.2 : ℚ) / 255)
      if get_luminance_rgb q > 0.5 then
        match darkenLoop hls.1 hls.2.2 background level hls.2.1 10 with
        | some (some c) => some c
        | some none => some "#000000"
        | none => none
      else
        match lightenLoop hls.1 hls.2.2 background level hls.2.1 10 with
        | some (some c) => some c
        | some none => some "#ffffff"
        | none => none
  | _, _ => none

set_option maxRecDepth 8000

/-! Helper lemmas: byte formatting and parsing round-trip. -/

/-- Every byte value formats as two non-`#` characters that `int(-, 16)`
parses back to the same value. -/
theorem hexPairFacts : ∀ m : Fin 256,
    (format02x ((m : ℕ) : ℤ)).length = 2 ∧
    (format02x ((m : ℕ) : ℤ)).head? ≠ some '#' ∧
    pyIntHex16 (format02x ((m : ℕ) : ℤ)) = some ((m : ℕ) : ℤ) := by decide

theorem pytrunc_nonneg (q : ℚ) (h : 0 ≤ q) : pytrunc q = ⌊q⌋ :=
  if_neg (not_lt.mpr h)

theorem floor_byte (x : ℚ) (h0 : 0 ≤ x) (h1 : x < 256) :
    ∃ m : Fin 256, (⌊x⌋ : ℤ) = ((m : ℕ) : ℤ) := by
  have hge : (0 : ℤ) ≤ ⌊x⌋ := Int.le_floor.mpr (by exact_mod_cast h0)
  have hlt : ⌊x⌋ < 256 := Int.floor_lt.mpr (by exact_mod_cast h1)
  exact ⟨⟨⌊x⌋.toNat, by omega⟩, by simp [Int.toNat_of_nonneg hge]⟩

theorem hex_to_rgb_hash_blocks (A B C : List Char) (hA : A.length = 2)
    (hB : B.length = 2) (hC : C.length = 2) (hA0 : A.head? ≠ some '#') :
    hex_to_rgb ⟨'#' :: (A ++ B ++ C)⟩ =
      match pyIntHex16 A, pyIntHex16 B, pyIntHex16 C with
      | some r, some g, some b => some (r, g, b)
      | _, _, _ => none := by
  obtain ⟨a1, a2, rfl⟩ := List.length_eq_two.mp hA
  obtain ⟨b1, b2, rfl⟩ := List.length_eq_two.mp hB
  obtain ⟨c1, c2, rfl⟩ := List.length_eq_two.mp hC
  have ha : ¬(a1 = '#') := by simpa using hA0
  simp [hex_to_rgb, pyLstripHash, List.dropWhile_cons, ha]

/-- Encoding three in-range channel values and parsing them back yields the
floors (Python `int()` truncation of non-negative floats). -/
theorem hexRoundTrip (x y z : ℚ) (hx0 : 0 ≤ x) (hx1 : x < 256) (hy0 : 0 ≤ y)
    (hy1 : y < 256) (hz0 : 0 ≤ z) (hz1 : z < 256) :
    hex_to_rgb (rgb_to_hex (x, y, z)) = some (⌊x⌋, ⌊y⌋, ⌊z⌋) := by
  obtain ⟨mx, hmx⟩ := floor_byte x hx0 hx1
  obtain ⟨my, hmy⟩ := floor_byte y hy0 hy1
  obtain ⟨mz, hmz⟩ := floor_byte z hz0 hz1
  have e : rgb_to_hex (x, y, z) =
      ⟨'#' :: (format02x ((mx : ℕ) : ℤ) ++ format02x ((my : ℕ) : ℤ) ++
        format02x ((mz : ℕ) : ℤ))⟩ := by
    simp only [rgb_to_hex, pytrunc_nonneg x hx0, pytrunc_nonneg y hy0,
      pytrunc_nonneg z hz0, hmx, hmy, hmz]
  rw [e, hex_to_rgb_hash_blocks _ _ _ (hexPairFacts mx).1 (hexPairFacts my).1
    (hexPairFacts mz).1 (hexPairFacts mx).2.1]
  rw [(hexPairFacts mx).2.2, (hexPairFacts my).2.2, (hexPairFacts mz).2.2,
    hmx, hmy, hmz]

/-! Helper lemmas: range invariants of the HLS conversions. -/

theorem fract_eq (q : ℚ) : q - ⌊q⌋ = Int.fract q := rfl

theorem _v_mem (m1 m2 hue : ℚ) (h0 : 0 ≤ m1) (h12 : m1 ≤ m2) (h1 : m2 ≤ 1) :
    0 ≤ _v m1 m2 hue ∧ _v m1 m2 hue ≤ 1 := by
  unfold _v
  rw [fract_eq]
  dsimp only
  have hf0 : 0 ≤ Int.fract hue := Int.fract_nonneg hue
  have hf1 : Int.fract hue < 1 := Int.fract_lt_one hue
  split_ifs with c1 c2 c3
  · constructor <;> nlinarith
  · exact ⟨le_trans h0 h12, h1⟩
  · constructor <;> nlinarith
  · exact ⟨h0, le_trans h12 h1⟩

theorem rgb_to_hls_l (r g b : ℚ) :
    (rgb_to_hls r g b).2.1 = (max r (max g b) + min r (min g b)) / 2 := by
  unfold rgb_to_hls
  dsimp only
  split_ifs <;> rfl

theorem rgb_to_hls_s (r g b : ℚ) :
    (rgb_to_hls r g b).2.2 =
      if min r (min g b) = max r (max g b) then 0
      else if (max r (max g b) + min r (min g b)) / 2 ≤ 1/2 then
        (max r (max g b) - min r (min g b)) / (max r (max g b) + min r (min g b))
      else
        (max r (max g b) - min r (min g b)) / (2 - (max r (max g b) + min r (min g b))) := by
  unfold rgb_to_hls
  dsimp only
  split_ifs <;> rfl

theorem rgb_to_hls_bounds (r g b : ℚ) (hr0 : 0 ≤ r) (hr1 : r ≤ 1)
    (hg0 : 0 ≤ g) (hg1 : g ≤ 1) (hb0 : 0 ≤ b) (hb1 : b ≤ 1) :
    (0 ≤ (rgb_to_hls r g b).2.1 ∧ (rgb_to_hls r g b).2.1 ≤ 1) ∧
    (0 ≤ (rgb_to_hls r g b).2.2 ∧ (rgb_to_hls r g b).2.2 ≤ 1) := by
  rw [rgb_to_hls_l, rgb_to_hls_s]
  have hmax1 : max r (max g b) ≤ 1 := by
    simp only [max_le_iff]
    exact ⟨hr1, hg1, hb1⟩
  have hmin0 : 0 ≤ min r (min g b) := by
    simp only [le_min_iff]
    exact ⟨hr0, hg0, hb0⟩
  have hmm : min r (min g b) ≤ max r (max g b) :=
    le_trans (min_le_left _ _) (le_max_left _ _)
  refine ⟨⟨by nlinarith, by nlinarith⟩, ?_⟩
  split_ifs with c1 c2
  · norm_num
  · have hlt : min r (min g b) < max r (max g b) := lt_of_le_of_ne hmm c1
    have hsum : 0 < max r (max g b) + min r (min g b) := by nlinarith
    constructor
    · exact div_nonneg (by nlinarith) (le_of_lt hsum)
    · rw [div_le_one hsum]
      nlinarith
  · have hlt : min r (min g b) < max r (max g b) := lt_of_le_of_ne hmm c1
    have hsum : (0:ℚ) < 2 - (max r (max g b) + min r (min g b)) := by nlinarith
    constructor
    · exact div_nonneg (by nlinarith) (le_of_lt hsum)
    · rw [div_le_one hsum]
      nlinarith

theorem hls_to_rgb_bounds (h l s : ℚ) (hl0 : 0 ≤ l) (hl1 : l ≤ 1)
    (hs0 : 0 ≤ s) (hs1 : s ≤ 1) :
    (0 ≤ (hls_to_rgb h l s).1 ∧ (hls_to_rgb h l s).1 ≤ 1) ∧
    (0 ≤ (hls_to_rgb h l s).2.1 ∧ (hls_to_rgb h l s).2.1 ≤ 1) ∧
    (0 ≤ (hls_to_rgb h l s).2.2 ∧ (hls_to_rgb h l s).2.2 ≤ 1) := by
  unfold hls_to_rgb
  dsimp only
  split_ifs with c1 c2
  · exact ⟨⟨hl0, hl1⟩, ⟨hl0, hl1⟩, ⟨hl0, hl1⟩⟩
  · have h0 : 0 ≤ 2 * l - l * (1 + s) := by nlinarith
    have h12 : 2 * l - l * (1 + s) ≤ l * (1 + s) := by nlinarith
    have h1 : l * (1 + s) ≤ 1 := by nlinarith
    exact ⟨_v_mem _ _ _ h0 h12 h1, _v_mem _ _ _ h0 h12 h1,
      _v_mem _ _ _ h0 h12 h1⟩
  · have hc : 1/2 < l := lt_of_not_le c2
    have h0 : 0 ≤ 2 * l - (l + s - l * s) := by nlinarith
    have h12 : 2 * l - (l + s - l * s) ≤ l + s - l * s := by nlinarith
    have h1 : l + s - l * s ≤ 1 := by nlinarith
    exact ⟨_v_mem _ _ _ h0 h12 h1, _v_mem _ _ _ h0 h12 h1,
      _v_mem _ _ _ h0 h12 h1⟩

/-! Helper lemmas: the real power `x ^ 2.4` and luminance bounds. -/

theorem rpow24_pow5 (x : ℝ) (hx : 0 ≤ x) :
    (x ^ (2.4 : ℝ)) ^ (5 : ℕ) = x ^ (12 : ℕ) := by
  rw [← Real.rpow_natCast (x ^ (2.4 : ℝ)) 5, ← Real.rpow_mul hx,
    ← Real.rpow_natCast x 12]
  norm_num

theorem le_rpow24 (x lo : ℝ) (hx : 0 ≤ x) (hlo : 0 ≤ lo)
    (h : lo ^ (5 : ℕ) ≤ x ^ (12 : ℕ)) : lo ≤ x ^ (2.4 : ℝ) := by
  have h5 : lo ^ (5 : ℕ) ≤ (x ^ (2.4 : ℝ)) ^ (5 : ℕ) := by
    rw [rpow24_pow5 x hx]; exact h
  exact le_of_pow_le_pow_left₀ (by norm_num) (Real.rpow_nonneg hx _) h5

theorem rpow24_le (x hi : ℝ) (hx : 0 ≤ x) (hhi : 0 ≤ hi)
    (h : x ^ (12 : ℕ) ≤ hi ^ (5 : ℕ)) : x ^ (2.4 : ℝ) ≤ hi := by
  have h5 : (x ^ (2.4 : ℝ)) ^ (5 : ℕ) ≤ hi ^ (5 : ℕ) := by
    rw [rpow24_pow5 x hx]; exact h
  exact le_of_pow_le_pow_left₀ (by norm_num) hhi h5

theorem frac_pow5_le_frac_pow12 (a b c d : ℕ) (hb : 0 < b) (hd : 0 < d)
    (h : a ^ 5 * d ^ 12 ≤ c ^ 12 * b ^ 5) :
    ((a : ℝ) / b) ^ (5 : ℕ) ≤ ((c : ℝ) / d) ^ (12 : ℕ) := by
  rw [div_pow, div_pow, div_le_div_iff₀ (by positivity) (by positivity)]
  exact_mod_cast h

theorem frac_pow12_le_frac_pow5 (a b c d : ℕ) (hb : 0 < b) (hd : 0 < d)
    (h : a ^ 12 * d ^ 5 ≤ c ^ 5 * b ^ 12) :
    ((a : ℝ) / b) ^ (12 : ℕ) ≤ ((c : ℝ) / d) ^ (5 : ℕ) := by
  rw [div_pow, div_pow, div_le_div_iff₀ (by positivity) (by positivity)]
  exact_mod_cast h

theorem srgb_lin_nonneg (c : ℝ) (h : 0 ≤ c) : 0 ≤ srgb_lin c := by
  unfold srgb_lin
  split_ifs
  · positivity
  · exact Real.rpow_nonneg (by positivity) _

theorem srgb_lin_bounds (c lo hi : ℝ) (hc : ¬ c ≤ 0.03928) (hlo : 0 ≤ lo)
    (hhi : 0 ≤ hi) (h1 : lo ^ (5 : ℕ) ≤ ((c + 0.055) / 1.055) ^ (12 : ℕ))
    (h2 : ((c + 0.055) / 1.055) ^ (12 : ℕ) ≤ hi ^ (5 : ℕ)) :
    lo ≤ srgb_lin c ∧ srgb_lin c ≤ hi := by
  have hc0 : (0 : ℝ) ≤ (c + 0.055) / 1.055 := by
    have : (0.03928 : ℝ) < c := lt_of_not_le hc
    positivity
  rw [srgb_lin, if_neg hc]
  exact ⟨le_rpow24 _ _ hc0 hlo h1, rpow24_le _ _ hc0 hhi h2⟩

theorem lin204 : (3/5 : ℝ) ≤ srgb_lin (204/255) ∧ srgb_lin (204/255) ≤ 61/100 := by
  have e : ((204 : ℝ)/255 + 0.055) / 1.055 = 171/211 := by norm_num
  refine srgb_lin_bounds _ _ _ (by norm_num) (by norm_num) (by norm_num) ?_ ?_ <;>
    rw [e]
  · exact frac_pow5_le_frac_pow12 3 5 171 211 (by norm_num) (by norm_num) (by norm_num)
  · exact frac_pow12_le_frac_pow5 171 211 61 100 (by norm_num) (by norm_num) (by norm_num)

theorem lin183 : (47/100 : ℝ) ≤ srgb_lin (183/255) ∧ srgb_lin (183/255) ≤ 12/25 := by
  have e : ((183 : ℝ)/255 + 0.055) / 1.055 = 2627/3587 := by norm_num
  refine srgb_lin_bounds _ _ _ (by norm_num) (by norm_num) (by norm_num) ?_ ?_ <;>
    rw [e]
  · exact frac_pow5_le_frac_pow12 47 100 2627 3587 (by norm_num) (by norm_num) (by norm_num)
  · exact frac_pow12_le_frac_pow5 2627 3587 12 25 (by norm_num) (by norm_num) (by norm_num)

theorem lin163 : (9/25 : ℝ) ≤ srgb_lin (163/255) ∧ srgb_lin (163/255) ≤ 37/100 := by
  have e : ((163 : ℝ)/255 + 0.055) / 1.055 = 7081/10761 := by norm_num
  refine srgb_lin_bounds _ _ _ (by norm_num) (by norm_num) (by norm_num) ?_ ?_ <;>
    rw [e]
  · exact frac_pow5_le_frac_pow12 9 25 7081 10761 (by norm_num) (by norm_num) (by norm_num)
  · exact frac_pow12_le_frac_pow5 7081 10761 37 100 (by norm_num) (by norm_num) (by norm_num)

theorem lin51 : (4/125 : ℝ) ≤ srgb_lin (51/255) ∧ srgb_lin (51/255) ≤ 17/500 := by
  have e : ((51 : ℝ)/255 + 0.055) / 1.055 = 51/211 := by norm_num
  refine srgb_lin_bounds _ _ _ (by norm_num) (by norm_num) (by norm_num) ?_ ?_ <;>
    rw [e]
  · exact frac_pow5_le_frac_pow12 4 125 51 211 (by norm_num) (by norm_num) (by norm_num)
  · exact frac_pow12_le_frac_pow5 51 211 17 500 (by norm_num) (by norm_num) (by norm_num)

theorem lin45 : (13/500 : ℝ) ≤ srgb_lin (45/255) ∧ srgb_lin (45/255) ≤ 27/1000 := by
  have e : ((45 : ℝ)/255 + 0.055) / 1.055 = 787/3587 := by norm_num
  refine srgb_lin_bounds _ _ _ (by norm_num) (by norm_num) (by norm_num) ?_ ?_ <;>
    rw [e]
  · exact frac_pow5_le_frac_pow12 13 500 787 3587 (by norm_num) (by norm_num) (by norm_num)
  · exact frac_pow12_le_frac_pow5 787 3587 27 1000 (by norm_num) (by norm_num) (by norm_num)

theorem lin40 : (21/1000 : ℝ) ≤ srgb_lin (40/255) ∧ srgb_lin (40/255) ≤ 43/2000 := by
  have e : ((40 : ℝ)/255 + 0.055) / 1.055 = 2161/10761 := by norm_num
  refine srgb_lin_bounds _ _ _ (by norm_num) (by norm_num) (by norm_num) ?_ ?_ <;>
    rw [e]
  · exact frac_pow5_le_frac_pow12 21 1000 2161 10761 (by norm_num) (by norm_num) (by norm_num)
  · exact frac_pow12_le_frac_pow5 2161 10761 43 2000 (by norm_num) (by norm_num) (by norm_num)

theorem lum_white : get_luminance_rgb (255, 255, 255) = 1 := by
  have e : srgb_lin (((255 : ℤ) : ℝ) / 255) = 1 := by
    have e1 : (((255 : ℤ) : ℝ) / 255) = 1 := by norm_num
    rw [e1, srgb_lin, if_neg (by norm_num)]
    rw [show ((1 : ℝ) + 0.055) / 1.055 = 1 by norm_num, Real.one_rpow]
  show 0.2126 * srgb_lin (((255 : ℤ) : ℝ) / 255) +
      0.7152 * srgb_lin (((255 : ℤ) : ℝ) / 255) +
      0.0722 * srgb_lin (((255 : ℤ) : ℝ) / 255) = 1
  rw [e]; norm_num

theorem lum_black : get_luminance_rgb (0, 0, 0) = 0 := by
  have e : srgb_lin (((0 : ℤ) : ℝ) / 255) = 0 := by
    rw [show (((0 : ℤ) : ℝ) / 255) = 0 by norm_num, srgb_lin,
      if_pos (by norm_num)]
    norm_num
  show 0.2126 * srgb_lin (((0 : ℤ) : ℝ) / 255) +
      0.7152 * srgb_lin (((0 : ℤ) : ℝ) / 255) +
      0.0722 * srgb_lin (((0 : ℤ) : ℝ) / 255) = 0
  rw [e]; norm_num

theorem lum_nonneg (p : ℤ × ℤ × ℤ) (h1 : 0 ≤ p.1) (h2 : 0 ≤ p.2.1)
    (h3 : 0 ≤ p.2.2) : 0 ≤ get_luminance_rgb p := by
  unfold get_luminance_rgb
  have l1 := srgb_lin_nonneg ((p.1 : ℝ) / 255) (by positivity)
  have l2 := srgb_lin_nonneg ((p.2.1 : ℝ) / 255) (by positivity)
  have l3 := srgb_lin_nonneg ((p.2.2 : ℝ) / 255) (by positivity)
  nlinarith

theorem lum_cc3333 : 1/10 < get_luminance_rgb (204, 51, 51) ∧
    get_luminance_rgb (204, 51, 51) < 1 := by
  have c1 : (((204 : ℤ) : ℝ) / 255) = (204 : ℝ) / 255 := by norm_num
  have c2 : (((51 : ℤ) : ℝ) / 255) = (51 : ℝ) / 255 := by norm_num
  show 1/10 < 0.2126 * srgb_lin (((204 : ℤ) : ℝ) / 255) +
      0.7152 * srgb_lin (((51 : ℤ) : ℝ) / 255) +
      0.0722 * srgb_lin (((51 : ℤ) : ℝ) / 255) ∧
    0.2126 * srgb_lin (((204 : ℤ) : ℝ) / 255) +
      0.7152 * srgb_lin (((51 : ℤ) : ℝ) / 255) +
      0.0722 * srgb_lin (((51 : ℤ) : ℝ) / 255) < 1
  rw [c1, c2]
  obtain ⟨a1, a2⟩ := lin204
  obtain ⟨b1, b2⟩ := lin51
  constructor <;> nlinarith

theorem lum_b72d2d : 1/10 < get_luminance_rgb (183, 45, 45) ∧
    get_luminance_rgb (183, 45, 45) < 1 := by
  have c1 : (((183 : ℤ) : ℝ) / 255) = (183 : ℝ) / 255 := by norm_num
  have c2 : (((45 : ℤ) : ℝ) / 255) = (45 : ℝ) / 255 := by norm_num
  show 1/10 < 0.2126 * srgb_lin (((183 : ℤ) : ℝ) / 255) +
      0.7152 * srgb_lin (((45 : ℤ) : ℝ) / 255) +
      0.0722 * srgb_lin (((45 : ℤ) : ℝ) / 255) ∧
    0.2126 * srgb_lin (((183 : ℤ) : ℝ) / 255) +
      0.7152 * srgb_lin (((45 : ℤ) : ℝ) / 255) +
      0.0722 * srgb_lin (((45 : ℤ) : ℝ) / 255) < 1
  rw [c1, c2]
  obtain ⟨a1, a2⟩ := lin183
  obtain ⟨b1, b2⟩ := lin45
  constructor <;> nlinarith

theorem lum_a32828 : get_luminance_rgb (163, 40, 40) ≤ 1/10 ∧
    get_luminance_rgb (163, 40, 40) < 1 := by
  have c1 : (((163 : ℤ) : ℝ) / 255) = (163 : ℝ) / 255 := by norm_num
  have c2 : (((40 : ℤ) : ℝ) / 255) = (40 : ℝ) / 255 := by norm_num
  show 0.2126 * srgb_lin (((163 : ℤ) : ℝ) / 255) +
      0.7152 * srgb_lin (((40 : ℤ) : ℝ) / 255) +
      0.0722 * srgb_lin (((40 : ℤ) : ℝ) / 255) ≤ 1/10 ∧
    0.2126 * srgb_lin (((163 : ℤ) : ℝ) / 255) +
      0.7152 * srgb_lin (((40 : ℤ) : ℝ) / 255) +
      0.0722 * srgb_lin (((40 : ℤ) : ℝ) / 255) < 1
  rw [c1, c2]
  obtain ⟨a1, a2⟩ := lin163
  obtain ⟨b1, b2⟩ := lin40
  constructor <;> nlinarith

/-! Helper lemmas: contrast ratio and the accessibility predicate. -/

theorem contrast_of_symm (l1 l2 : ℝ) : contrast_of l1 l2 = contrast_of l2 l1 := by
  unfold contrast_of
  rcases lt_trichotomy l1 l2 with h | h | h
  · rw [if_pos h, if_neg (not_lt.mpr (le_of_lt h))]
  · rw [h]
  · rw [if_neg (not_lt.mpr (le_of_lt h)), if_pos h]

theorem contrast_of_ge_one (l1 l2 : ℝ) (h1 : 0 ≤ l1) (h2 : 0 ≤ l2) :
    1 ≤ contrast_of l1 l2 := by
  unfold contrast_of
  split_ifs with h
  · rw [le_div_iff₀ (by linarith)]
    linarith
  · rw [le_div_iff₀ (by linarith)]
    push_neg at h
    linarith

theorem contrast_of_eq_one_iff (l1 l2 : ℝ) (h1 : 0 ≤ l1) (h2 : 0 ≤ l2) :
    contrast_of l1 l2 = 1 ↔ l1 = l2 := by
  unfold contrast_of
  split_ifs with h
  · rw [div_eq_one_iff_eq (by linarith)]
    constructor
    · intro e
      linarith
    · intro e
      linarith
  · rw [div_eq_one_iff_eq (by linarith)]
    constructor
    · intro e
      linarith
    · intro e
      linarith

theorem contrast_of_self (l : ℝ) (h : 0 ≤ l) : contrast_of l l = 1 := by
  unfold contrast_of
  rw [if_neg (lt_irrefl l)]
  rw [div_self (by linarith)]

theorem accessAA (c bg : ℤ × ℤ × ℤ) :
    is_accessible_rgb c bg "AA" ↔ get_contrast_ratio_rgb c bg ≥ 4.5 := by
  rw [is_accessible_rgb, if_pos rfl]

theorem accessAAA (c bg : ℤ × ℤ × ℤ) :
    is_accessible_rgb c bg "AAA" ↔ get_contrast_ratio_rgb c bg ≥ 7.0 := by
  rw [is_accessible_rgb, if_neg (by decide), if_pos rfl]

theorem accessOther (c bg : ℤ × ℤ × ℤ) (level : String) (h1 : level ≠ "AA")
    (h2 : level ≠ "AAA") : ¬ is_accessible_rgb c bg level := by
  rw [is_accessible_rgb, if_neg h1, if_neg h2]
  exact not_false

/-! Helper lemmas: the variant-search loops. -/

theorem darkenLoop_zero (h s : ℚ) (bg level : String) (l : ℚ) :
    darkenLoop h s bg level l 0 = some none := rfl

theorem darkenLoop_succ (h s : ℚ) (bg level : String) (l : ℚ) (n : ℕ) :
    darkenLoop h s bg level l (n + 1) =
      (let l2 := max 0 (l - 0.05)
       let rgb := hls_to_rgb h l2 s
       let new_color := rgb_to_hex (rgb.1 * 255, rgb.2.1 * 255, rgb.2.2 * 255)
       match hex_to_rgb new_color, hex_to_rgb bg with
       | some pc, some pq =>
         if is_accessible_rgb pc pq level then some (some new_color)
         else darkenLoop h s bg level l2 n
       | _, _ => none) := rfl

theorem lightenLoop_zero (h s : ℚ) (bg level : String) (l : ℚ) :
    lightenLoop h s bg level l 0 = some none := rfl

theorem lightenLoop_succ (h s : ℚ) (bg level : String) (l : ℚ) (n : ℕ) :
    lightenLoop h s bg level l (n + 1) =
      (let l2 := min 1 (l + 0.05)
       let rgb := hls_to_rgb h l2 s
       let new_color := rgb_to_hex (rgb.1 * 255, rgb.2.1 * 255, rgb.2.2 * 255)
       match hex_to_rgb new_color, hex_to_rgb bg with
       | some pc, some pq =>
         if is_accessible_rgb pc pq level then some (some new_color)
         else lightenLoop h s bg level l2 n
       | _, _ => none) := rfl

theorem AccessibleS_of (c bg level : String) (pc q : ℤ × ℤ × ℤ)
    (h1 : hex_to_rgb c = some pc) (h2 : hex_to_rgb bg = some q)
    (h3 : is_accessible_rgb pc q level) : AccessibleS c bg level := by
  unfold AccessibleS
  rw [h1, h2]
  exact h3

theorem darkenLoop_spec (h s : ℚ) (bg level : String) (q : ℤ × ℤ × ℤ)
    (hq : hex_to_rgb bg = some q) (hs0 : 0 ≤ s) (hs1 : s ≤ 1) :
    ∀ (n : ℕ) (l : ℚ), 0 ≤ l → l ≤ 1 →
      ∃ r, darkenLoop h s bg level l n = some r ∧
        ∀ c, r = some c → AccessibleS c bg level ∧
          ∃ l2, c = rgb_to_hex ((hls_to_rgb h l2 s).1 * 255,
            (hls_to_rgb h l2 s).2.1 * 255, (hls_to_rgb h l2 s).2.2 * 255) := by
  intro n
  induction n with
  | zero =>
    intro l hl0 hl1
    exact ⟨none, rfl, by intro c hc; cases hc⟩
  | succ n ih =>
    intro l hl0 hl1
    have hl20 : (0:ℚ) ≤ max 0 (l - 0.05) := le_max_left _ _
    have hl21 : max 0 (l - 0.05) ≤ 1 := max_le (by norm_num) (by linarith)
    obtain ⟨⟨r0, r1⟩, ⟨g0, g1⟩, ⟨b0, b1⟩⟩ :=
      hls_to_rgb_bounds h (max 0 (l - 0.05)) s hl20 hl21 hs0 hs1
    have hparse := hexRoundTrip ((hls_to_rgb h (max 0 (l - 0.05)) s).1 * 255)
      ((hls_to_rgb h (max 0 (l - 0.05)) s).2.1 * 255)
      ((hls_to_rgb h (max 0 (l - 0.05)) s).2.2 * 255)
      (by nlinarith) (by nlinarith) (by nlinarith) (by nlinarith)
      (by nlinarith) (by nlinarith)
    rw [darkenLoop_succ]
    dsimp only
    rw [hparse, hq]
    dsimp only
    by_cases hacc : is_accessible_rgb
      (⌊(hls_to_rgb h (max 0 (l - 0.05)) s).1 * 255⌋,
       ⌊(hls_to_rgb h (max 0 (l - 0.05)) s).2.1 * 255⌋,
       ⌊(hls_to_rgb h (max 0 (l - 0.05)) s).2.2 * 255⌋) q level
    · rw [if_pos hacc]
      refine ⟨some (rgb_to_hex ((hls_to_rgb h (max 0 (l - 0.05)) s).1 * 255,
        (hls_to_rgb h (max 0 (l - 0.05)) s).2.1 * 255,
        (hls_to_rgb h (max 0 (l - 0.05)) s).2.2 * 255)), rfl, ?_⟩
      intro c hc
      have hc' : c = rgb_to_hex ((hls_to_rgb h (max 0 (l - 0.05)) s).1 * 255,
          (hls_to_rgb h (max 0 (l - 0.05)) s).2.1 * 255,
          (hls_to_rgb h (max 0 (l - 0.05)) s).2.2 * 255) := by
        injection hc with hc2
        exact hc2.symm
      subst hc'
      exact ⟨AccessibleS_of _ _ _ _ _ hparse hq hacc, max 0 (l - 0.05), rfl⟩
    · rw [if_neg hacc]
      exact ih (max 0 (l - 0.05)) hl20 hl21

theorem lightenLoop_spec (h s : ℚ) (bg level : String) (q : ℤ × ℤ × ℤ)
    (hq : hex_to_rgb bg = some q) (hs0 : 0 ≤ s) (hs1 : s ≤ 1) :
    ∀ (n : ℕ) (l : ℚ), 0 ≤ l → l ≤ 1 →
      ∃ r, lightenLoop h s bg level l n = some r ∧
        ∀ c, r = some c → AccessibleS c bg level ∧
          ∃ l2, c = rgb_to_hex ((hls_to_rgb h l2 s).1 * 255,
            (hls_to_rgb h l2 s).2.1 * 255, (hls_to_rgb h l2 s).2.2 * 255) := by
  intro n
  induction n with
  | zero =>
    intro l hl0 hl1
    exact ⟨none, rfl, by intro c hc; cases hc⟩
  | succ n ih =>
    intro l hl0 hl1
    have hl20 : (0:ℚ) ≤ min 1 (l + 0.05) := le_min (by norm_num) (by linarith)
    have hl21 : min 1 (l + 0.05) ≤ 1 := min_le_left _ _
    obtain ⟨⟨r0, r1⟩, ⟨g0, g1⟩, ⟨b0, b1⟩⟩ :=
      hls_to_rgb_bounds h (min 1 (l + 0.05)) s hl20 hl21 hs0 hs1
    have hparse := hexRoundTrip ((hls_to_rgb h (min 1 (l + 0.05)) s).1 * 255)
      ((hls_to_rgb h (min 1 (l + 0.05)) s).2.1 * 255)
      ((hls_to_rgb h (min 1 (l + 0.05)) s).2.2 * 255)
      (by nlinarith) (by nlinarith) (by nlinarith) (by nlinarith)
      (by nlinarith) (by nlinarith)
    rw [lightenLoop_succ]
    dsimp only
    rw [hparse, hq]
    dsimp only
    by_cases hacc : is_accessible_rgb
      (⌊(hls_to_rgb h (min 1 (l + 0.05)) s).1 * 255⌋,
       ⌊(hls_to_rgb h (min 1 (l + 0.05)) s).2.1 * 255⌋,
       ⌊(hls_to_rgb h (min 1 (l + 0.05)) s).2.2 * 255⌋) q level
    · rw [if_pos hacc]
      refine ⟨some (rgb_to_hex ((hls_to_rgb h (min 1 (l + 0.05)) s).1 * 255,
        (hls_to_rgb h (min 1 (l + 0.05)) s).2.1 * 255,
        (hls_to_rgb h (min 1 (l + 0.05)) s).2.2 * 255)), rfl, ?_⟩
      intro c hc
      have hc' : c = rgb_to_hex ((hls_to_rgb h (min 1 (l + 0.05)) s).1 * 255,
          (hls_to_rgb h (min 1 (l + 0.05)) s).2.1 * 255,
          (hls_to_rgb h (min 1 (l + 0.05)) s).2.2 * 255) := by
        injection hc with hc2
        exact hc2.symm
      subst hc'
      exact ⟨AccessibleS_of _ _ _ _ _ hparse hq hacc, min 1 (l + 0.05), rfl⟩
    · rw [if_neg hacc]
      exact ih (min 1 (l + 0.05)) hl20 hl21

theorem darkenLoop_exhaust (h s : ℚ) (bg level : String) (q : ℤ × ℤ × ℤ)
    (hq : hex_to_rgb bg = some q) (hs0 : 0 ≤ s) (hs1 : s ≤ 1)
    (hn1 : level ≠ "AA") (hn2 : level ≠ "AAA") :
    ∀ (n : ℕ) (l : ℚ), 0 ≤ l → l ≤ 1 →
      darkenLoop h s bg level l n = some none := by
  intro n
  induction n with
  | zero => intro l hl0 hl1; rfl
  | succ n ih =>
    intro l hl0 hl1
    have hl20 : (0:ℚ) ≤ max 0 (l - 0.05) := le_max_left _ _
    have hl21 : max 0 (l - 0.05) ≤ 1 := max_le (by norm_num) (by linarith)
    obtain ⟨⟨r0, r1⟩, ⟨g0, g1⟩, ⟨b0, b1⟩⟩ :=
      hls_to_rgb_bounds h (max 0 (l - 0.05)) s hl20 hl21 hs0 hs1
    have hparse := hexRoundTrip ((hls_to_rgb h (max 0 (l - 0.05)) s).1 * 255)
      ((hls_to_rgb h (max 0 (l - 0.05)) s).2.1 * 255)
      ((hls_to_rgb h (max 0 (l - 0.05)) s).2.2 * 255)
      (by nlinarith) (by nlinarith) (by nlinarith) (by nlinarith)
      (by nlinarith) (by nlinarith)
    rw [darkenLoop_succ]
    dsimp only
    rw [hparse, hq]
    dsimp only
    rw [if_neg (accessOther _ _ _ hn1 hn2)]
    exact ih (max 0 (l - 0.05)) hl20 hl21

theorem lightenLoop_exhaust (h s : ℚ) (bg level : String) (q : ℤ × ℤ × ℤ)
    (hq : hex_to_rgb bg = some q) (hs0 : 0 ≤ s) (hs1 : s ≤ 1)
    (hn1 : level ≠ "AA") (hn2 : level ≠ "AAA") :
    ∀ (n : ℕ) (l : ℚ), 0 ≤ l → l ≤ 1 →
      lightenLoop h s bg level l n = some none := by
  intro n
  induction n with
  | zero => intro l hl0 hl1; rfl
  | succ n ih =>
    intro l hl0 hl1
    have hl20 : (0:ℚ) ≤ min 1 (l + 0.05) := le_min (by norm_num) (by linarith)
    have hl21 : min 1 (l + 0.05) ≤ 1 := min_le_left _ _
    obtain ⟨⟨r0, r1⟩, ⟨g0, g1⟩, ⟨b0, b1⟩⟩ :=
      hls_to_rgb_bounds h (min 1 (l + 0.05)) s hl20 hl21 hs0 hs1
    have hparse := hexRoundTrip ((hls_to_rgb h (min 1 (l + 0.05)) s).1 * 255)
      ((hls_to_rgb h (min 1 (l + 0.05)) s).2.1 * 255)
      ((hls_to_rgb h (min 1 (l + 0.05)) s).2.2 * 255)
      (by nlinarith) (by nlinarith) (by nlinarith) (by nlinarith)
      (by nlinarith) (by nlinarith)
    rw [lightenLoop_succ]
    dsimp only
    rw [hparse, hq]
    dsimp only
    rw [if_neg (accessOther _ _ _ hn1 hn2)]
    exact ih (min 1 (l + 0.05)) hl20 hl21

/-! Claim theorems. -/

/-- C1: for every valid foreground `color`, background `background` and
level, `get_accessible_variant` returns `color` unchanged when the pair is
already accessible; otherwise it returns a color that is accessible on the
background, or exactly `#000000` (background luminance above 0.5) or
`#ffffff` (otherwise) when no step of the 10-iteration budget passes. -/
theorem C1_variant_search (color background level : String) (p q : ℤ × ℤ × ℤ)
    (hp : hex_to_rgb color = some p) (hq : hex_to_rgb background = some q)
    (hr : RGBInRange p) :
    ∃ c2, get_accessible_variant color background level = some c2 ∧
      (is_accessible_rgb p q level → c2 = color) ∧
      (¬ is_accessible_rgb p q level →
        AccessibleS c2 background level ∨
        (c2 = "#000000" ∧ get_luminance_rgb q > 0.5) ∨
        (c2 = "#ffffff" ∧ ¬ get_luminance_rgb q > 0.5)) := by
  unfold get_accessible_variant
  rw [hp, hq]
  dsimp only
  by_cases hacc : is_accessible_rgb p q level
  · rw [if_pos hacc]
    exact ⟨color, rfl, fun _ => rfl, fun hn => absurd hacc hn⟩
  · rw [if_neg hacc]
    obtain ⟨hr1, hr2, hr3, hr4, hr5, hr6⟩ := hr
    have c10 : (0:ℚ) ≤ (p.1 : ℚ) / 255 := by
      have : (0:ℚ) ≤ (p.1 : ℚ) := by exact_mod_cast hr1
      positivity
    have c11 : (p.1 : ℚ) / 255 ≤ 1 := by
      rw [div_le_one (by norm_num)]
      exact_mod_cast hr2
    have c20 : (0:ℚ) ≤ (p.2.1 : ℚ) / 255 := by
      have : (0:ℚ) ≤ (p.2.1 : ℚ) := by exact_mod_cast hr3
      positivity
    have c21 : (p.2.1 : ℚ) / 255 ≤ 1 := by
      rw [div_le_one (by norm_num)]
      exact_mod_cast hr4
    have c30 : (0:ℚ) ≤ (p.2.2 : ℚ) / 255 := by
      have : (0:ℚ) ≤ (p.2.2 : ℚ) := by exact_mod_cast hr5
      positivity
    have c31 : (p.2.2 : ℚ) / 255 ≤ 1 := by
      rw [div_le_one (by norm_num)]
      exact_mod_cast hr6
    obtain ⟨⟨hl0, hl1⟩, hs0, hs1⟩ :=
      rgb_to_hls_bounds ((p.1 : ℚ) / 255) ((p.2.1 : ℚ) / 255) ((p.2.2 : ℚ) / 255)
        c10 c11 c20 c21 c30 c31
    by_cases hlum : get_luminance_rgb q > 0.5
    · rw [if_pos hlum]
      obtain ⟨r, hr', hprop⟩ := darkenLoop_spec
        (rgb_to_hls ((p.1 : ℚ) / 255) ((p.2.1 : ℚ) / 255) ((p.2.2 : ℚ) / 255)).1
        (rgb_to_hls ((p.1 : ℚ) / 255) ((p.2.1 : ℚ) / 255) ((p.2.2 : ℚ) / 255)).2.2
        background level q hq hs0 hs1 10
        (rgb_to_hls ((p.1 : ℚ) / 255) ((p.2.1 : ℚ) / 255) ((p.2.2 : ℚ) / 255)).2.1
        hl0 hl1
      rw [hr']
      cases r with
      | some c =>
        exact ⟨c, rfl, fun habs => absurd habs hacc,
          fun _ => Or.inl (hprop c rfl).1⟩
      | none =>
        exact ⟨"#000000", rfl, fun habs => absurd habs hacc,
          fun _ => Or.inr (Or.inl ⟨rfl, hlum⟩)⟩
    · rw [if_neg hlum]
      obtain ⟨r, hr', hprop⟩ := lightenLoop_spec
        (rgb_to_hls ((p.1 : ℚ) / 255) ((p.2.1 : ℚ) / 255) ((p.2.2 : ℚ) / 255)).1
        (rgb_to_hls ((p.1 : ℚ) / 255) ((p.2.1 : ℚ) / 255) ((p.2.2 : ℚ) / 255)).2.2
        background level q hq hs0 hs1 10
        (rgb_to_hls ((p.1 : ℚ) / 255) ((p.2.1 : ℚ) / 255) ((p.2.2 : ℚ) / 255)).2.1
        hl0 hl1
      rw [hr']
      cases r with
      | some c =>
        exact ⟨c, rfl, fun habs => absurd habs hacc,
          fun _ => Or.inl (hprop c rfl).1⟩
      | none =>
        exact ⟨"#ffffff", rfl, fun habs => absurd habs hacc,
          fun _ => Or.inr (Or.inr ⟨rfl, hlum⟩)⟩

/-- Witness for C1 at the concrete input `("#1e40af", "#ffffff", "AA")`. -/
theorem C1_variant_search_witness :
    ∃ c2, get_accessible_variant "#1e40af" "#ffffff" "AA" = some c2 ∧
      (is_accessible_rgb (30, 64, 175) (255, 255, 255) "AA" → c2 = "#1e40af") ∧
      (¬ is_accessible_rgb (30, 64, 175) (255, 255, 255) "AA" →
        AccessibleS c2 "#ffffff" "AA" ∨
        (c2 = "#000000" ∧ get_luminance_rgb (255, 255, 255) > 0.5) ∨
        (c2 = "#ffffff" ∧ ¬ get_luminance_rgb (255, 255, 255) > 0.5)) :=
  C1_variant_search "#1e40af" "#ffffff" "AA" (30, 64, 175) (255, 255, 255)
    (by decide) (by decide) (by decide)

/-- C10: for a level outside AA/AAA no candidate ever passes, so the full
search is exhausted and the result is exactly the fallback chosen by the
background's luminance. -/
theorem C10_bad_level_fallback (color background level : String)
    (p q : ℤ × ℤ × ℤ) (hp : hex_to_rgb color = some p)
    (hq : hex_to_rgb background = some q) (hr : RGBInRange p)
    (h1 : level ≠ "AA") (h2 : level ≠ "AAA") :
    (get_luminance_rgb q > 0.5 →
      get_accessible_variant color background level = some "#000000") ∧
    (¬ get_luminance_rgb q > 0.5 →
      get_accessible_variant color background level = some "#ffffff") := by
  have hacc : ¬ is_accessible_rgb p q level := accessOther p q level h1 h2
  unfold get_accessible_variant
  rw [hp, hq]
  dsimp only
  rw [if_neg hacc]
  obtain ⟨hr1, hr2, hr3, hr4, hr5, hr6⟩ := hr
  have c10 : (0:ℚ) ≤ (p.1 : ℚ) / 255 := by
    have : (0:ℚ) ≤ (p.1 : ℚ) := by exact_mod_cast hr1
    positivity
  have c11 : (p.1 : ℚ) / 255 ≤ 1 := by
    rw [div_le_one (by norm_num)]
    exact_mod_cast hr2
  have c20 : (0:ℚ) ≤ (p.2.1 : ℚ) / 255 := by
    have : (0:ℚ) ≤ (p.2.1 : ℚ) := by exact_mod_cast hr3
    positivity
  have c21 : (p.2.1 : ℚ) / 255 ≤ 1 := by
    rw [div_le_one (by norm_num)]
    exact_mod_cast hr4
  have c30 : (0:ℚ) ≤ (p.2.2 : ℚ) / 255 := by
    have : (0:ℚ) ≤ (p.2.2 : ℚ) := by exact_mod_cast hr5
    positivity
  have c31 : (p.2.2 : ℚ) / 255 ≤ 1 := by
    rw [div_le_one (by norm_num)]
    exact_mod_cast hr6
  obtain ⟨⟨hl0, hl1⟩, hs0, hs1⟩ :=
    rgb_to_hls_bounds ((p.1 : ℚ) / 255) ((p.2.1 : ℚ) / 255) ((p.2.2 : ℚ) / 255)
      c10 c11 c20 c21 c30 c31
  constructor
  · intro hlum
    rw [if_pos hlum, darkenLoop_exhaust _ _ background level q hq hs0 hs1 h1 h2
      10 _ hl0 hl1]
  · intro hlum
    rw [if_neg hlum, lightenLoop_exhaust _ _ background level q hq hs0 hs1 h1 h2
      10 _ hl0 hl1]

/-- Witness for C10 at `("#1e40af", "#ffffff", "zz")`: white background has
luminance 1, so the fallback is pure black. -/
theorem C10_bad_level_fallback_witness :
    get_accessible_variant "#1e40af" "#ffffff" "zz" = some "#000000" :=
  (C10_bad_level_fallback "#1e40af" "#ffffff" "zz" (30, 64, 175)
    (255, 255, 255) (by decide) (by decide) (by decide) (by decide)
    (by decide)).1 (by rw [lum_white]; norm_num)

/-- C3: `is_accessible` is true exactly when the contrast ratio reaches the
level's threshold (4.5 for AA, 7.0 for AAA), any other level yields false
rather than an error, and AAA-accessibility implies AA-accessibility. -/
theorem C3_is_accessible_iff (color background : ℤ × ℤ × ℤ) (level : String) :
    ((level = "AA" ∨ level = "AAA") →
      (is_accessible_rgb color background level ↔
        get_contrast_ratio_rgb color background ≥
          (if level = "AA" then 4.5 else 7.0))) ∧
    (level ≠ "AA" → level ≠ "AAA" → ¬ is_accessible_rgb color background level) ∧
    (is_accessible_rgb color background "AAA" →
      is_accessible_rgb color background "AA") := by
  refine ⟨?_, accessOther color background level, ?_⟩
  · rintro (rfl | rfl)
    · rw [if_pos rfl]
      exact accessAA _ _
    · rw [if_neg (by decide)]
      exact accessAAA _ _
  · intro h
    rw [accessAA]
    have h7 := (accessAAA color background).mp h
    have : (7.0 : ℝ) ≥ 4.5 := by norm_num
    exact ge_trans h7 this

/-- Witness for C3 at the concrete triple `((0,0,0), (255,255,255), "AA")`. -/
theorem C3_is_accessible_iff_witness :
    (("AA" = "AA" ∨ ("AA" : String) = "AAA") →
      (is_accessible_rgb (0, 0, 0) (255, 255, 255) "AA" ↔
        get_contrast_ratio_rgb (0, 0, 0) (255, 255, 255) ≥
          (if ("AA" : String) = "AA" then 4.5 else 7.0))) ∧
    (("AA" : String) ≠ "AA" → ("AA" : String) ≠ "AAA" →
      ¬ is_accessible_rgb (0, 0, 0) (255, 255, 255) "AA") ∧
    (is_accessible_rgb (0, 0, 0) (255, 255, 255) "AAA" →
      is_accessible_rgb (0, 0, 0) (255, 255, 255) "AA") :=
  C3_is_accessible_iff (0, 0, 0) (255, 255, 255) "AA"

/-- C4: the contrast ratio is symmetric, at least 1, equal to 1 exactly for
equal luminances, and 1 on a pair of identical colors. -/
theorem C4_contrast_properties (a b : ℤ × ℤ × ℤ) (ha : RGBInRange a)
    (hb : RGBInRange b) :
    get_contrast_ratio_rgb a b = get_contrast_ratio_rgb b a ∧
    1 ≤ get_contrast_ratio_rgb a b ∧
    (get_contrast_ratio_rgb a b = 1 ↔
      get_luminance_rgb a = get_luminance_rgb b) ∧
    get_contrast_ratio_rgb a a = 1 := by
  obtain ⟨a1, _, a2, _, a3, _⟩ := ha
  obtain ⟨b1, _, b2, _, b3, _⟩ := hb
  have la := lum_nonneg a a1 a2 a3
  have lb := lum_nonneg b b1 b2 b3
  exact ⟨contrast_of_symm _ _, contrast_of_ge_one _ _ la lb,
    contrast_of_eq_one_iff _ _ la lb, contrast_of_self _ la⟩

/-- Witness for C4 at the concrete pair `((0,0,0), (255,255,255))`. -/
theorem C4_contrast_properties_witness :
    get_contrast_ratio_rgb (0, 0, 0) (255, 255, 255) =
      get_contrast_ratio_rgb (255, 255, 255) (0, 0, 0) ∧
    1 ≤ get_contrast_ratio_rgb (0, 0, 0) (255, 255, 255) ∧
    (get_contrast_ratio_rgb (0, 0, 0) (255, 255, 255) = 1 ↔
      get_luminance_rgb (0, 0, 0) = get_luminance_rgb (255, 255, 255)) ∧
    get_contrast_ratio_rgb (0, 0, 0) (0, 0, 0) = 1 :=
  C4_contrast_properties (0, 0, 0) (255, 255, 255) (by decide) (by decide)

/-- C6: the categorical palette request returns exactly `count` entries,
entry `i` being the fixed 12-color list at index `i mod 12`; it never
fails, colors repeating beyond the list length. -/
theorem C6_categorical_cycle (n : ℕ) :
    ∃ l, get_chart_colors n "categorical" = some l ∧ l.length = n ∧
      ∀ i, i < n → l.getD i "" = CATEGORICAL_PALETTE.getD (i % 12) "" := by
  refine ⟨categoricalCycle n, ?_, ?_, ?_⟩
  · unfold get_chart_colors
    rw [if_pos rfl]
  · unfold categoricalCycle
    simp
  · intro i hi
    unfold categoricalCycle
    rw [List.getD_eq_getElem _ _ (by simpa using hi)]
    simp only [List.getElem_map, List.getElem_range]
    rfl

/-- Helper: the control flow of `get_chart_colors` into the sequential
anchor-selection branch. -/
theorem get_chart_colors_seq (pt : String) (scale : List String)
    (hne : pt ≠ "categorical")
    (hst : listStarts pt.data "sequential_".data = true)
    (hlk : List.lookup (⟨(splitUnd pt.data).getD 1 []⟩ : String)
      SEQUENTIAL_SCALES = some scale)
    (n : ℕ) (h2 : n ≤ scale.length) :
    get_chart_colors n pt = some (seqSelect scale n) := by
  unfold get_chart_colors
  rw [if_neg hne, if_pos hst, hlk]
  dsimp only
  rw [if_pos h2]

/-- Helper: the control flow of `get_chart_colors` into the diverging
anchor-selection branch. -/
theorem get_chart_colors_div (pt : String) (scale : List String)
    (hne : pt ≠ "categorical")
    (hst : listStarts pt.data "sequential_".data = false)
    (hst2 : listStarts pt.data "diverging_".data = true)
    (hlk : List.lookup (⟨(splitUndOnce pt.data).getD 1 []⟩ : String)
      DIVERGING_SCALES = some scale)
    (n : ℕ) (h2 : n ≤ scale.length) :
    get_chart_colors n pt = some (seqSelect scale n) := by
  unfold get_chart_colors
  rw [if_neg hne,
    if_neg (show ¬ (listStarts pt.data "sequential_".data = true) by
      rw [hst]; exact Bool.false_ne_true),
    if_pos hst2, hlk]
  dsimp only
  rw [if_pos h2]

/-- Helper: below the scale length the selected indices are the floors of
the evenly spaced rational positions (Python `int()` of a non-negative
float). -/
theorem seqSelect_eq (scale : List String) (n : ℕ) (h1 : 1 < n)
    (hlen : 1 ≤ scale.length) :
    seqSelect scale n = (List.range n).map (fun i : ℕ =>
      scale.getD (⌊(i : ℚ) * ((scale.length : ℚ) - 1) /
        ((n : ℚ) - 1)⌋).toNat "") := by
  unfold seqSelect
  rw [List.map_map]
  refine List.map_congr_left ?_
  intro i _
  simp only [Function.comp, if_pos h1]
  have e1 : (0:ℚ) ≤ (scale.length : ℚ) - 1 := by
    have : (1:ℚ) ≤ (scale.length : ℚ) := by exact_mod_cast hlen
    linarith
  have e2 : (0:ℚ) ≤ (n : ℚ) - 1 := by
    have : (1:ℚ) ≤ (n : ℚ) := by exact_mod_cast le_of_lt h1
    linarith
  have hq : (0:ℚ) ≤ (i : ℚ) * ((scale.length : ℚ) - 1) / ((n : ℚ) - 1) :=
    div_nonneg (mul_nonneg (by exact_mod_cast Nat.zero_le i) e1) e2
  rw [pytrunc_nonneg _ hq]

/-- Helper: a single requested color takes the scale's first anchor. -/
theorem seqSelect_one (scale : List String) :
    seqSelect scale 1 = [scale.getD 0 ""] := rfl

/-- Helper: a successful lookup in the registered sequential scales forces
one of the four registered names. -/
theorem seq_lookup_cases (name : String) (scale : List String)
    (h : List.lookup name SEQUENTIAL_SCALES = some scale) :
    (name = "blue" ∧ scale = ["#dbeafe", "#bfdbfe", "#93c5fd", "#60a5fa",
      "#3b82f6", "#2563eb", "#1d4ed8", "#1e40af", "#1e3a8a"]) ∨
    (name = "green" ∧ scale = ["#d1fae5", "#a7f3d0", "#6ee7b7", "#34d399",
      "#10b981", "#059669", "#047857", "#065f46", "#064e3b"]) ∨
    (name = "red" ∧ scale = ["#fee2e2", "#fecaca", "#fca5a5", "#f87171",
      "#ef4444", "#dc2626", "#b91c1c", "#991b1b", "#7f1d1d"]) ∨
    (name = "purple" ∧ scale = ["#ede9fe", "#ddd6fe", "#c4b5fd", "#a78bfa",
      "#8b5cf6", "#7c3aed", "#6d28d9", "#5b21b6", "#4c1d95"]) := by
  simp only [SEQUENTIAL_SCALES, List.lookup] at h
  by_cases h1 : name = "blue"
  · subst h1
    simp at h
    exact Or.inl ⟨rfl, h.symm⟩
  · rw [show (name == "blue") = false by simpa using h1] at h
    simp only [] at h
    by_cases h2 : name = "green"
    · subst h2
      simp at h
      exact Or.inr (Or.inl ⟨rfl, h.symm⟩)
    · rw [show (name == "green") = false by simpa using h2] at h
      simp only [] at h
      by_cases h3 : name = "red"
      · subst h3
        simp at h
        exact Or.inr (Or.inr (Or.inl ⟨rfl, h.symm⟩))
      · rw [show (name == "red") = false by simpa using h3] at h
        simp only [] at h
        by_cases h4 : name = "purple"
        · subst h4
          simp at h
          exact Or.inr (Or.inr (Or.inr ⟨rfl, h.symm⟩))
        · rw [show (name == "purple") = false by simpa using h4] at h
          simp only [] at h
          cases h

/-- Helper: analogue of `seq_lookup_cases` for the diverging scales. -/
theorem div_lookup_cases (name : String) (scale : List String)
    (h : List.lookup name DIVERGING_SCALES = some scale) :
    (name = "blue_red" ∧ scale = ["#1e40af", "#3b82f6", "#93c5fd", "#dbeafe",
      "#f8fafc", "#fee2e2", "#fca5a5", "#ef4444", "#dc2626"]) ∨
    (name = "green_purple" ∧ scale = ["#059669", "#10b981", "#6ee7b7",
      "#d1fae5", "#f8fafc", "#ede9fe", "#c4b5fd", "#8b5cf6", "#7c3aed"]) := by
  simp only [DIVERGING_SCALES, List.lookup] at h
  by_cases h1 : name = "blue_red"
  · subst h1
    simp at h
    exact Or.inl ⟨rfl, h.symm⟩
  · rw [show (name == "blue_red") = false by simpa using h1] at h
    simp only [] at h
    by_cases h2 : name = "green_purple"
    · subst h2
      simp at h
      exact Or.inr ⟨rfl, h.symm⟩
    · rw [show (name == "green_purple") = false by simpa using h2] at h
      simp only [] at h
      cases h

/-- Helper: sequential branch result in floor-index form. -/
theorem chart_seq_floor (pt : String) (scale : List String)
    (hne : pt ≠ "categorical")
    (hst : listStarts pt.data "sequential_".data = true)
    (hlk : List.lookup (⟨(splitUnd pt.data).getD 1 []⟩ : String)
      SEQUENTIAL_SCALES = some scale)
    (n : ℕ) (h1 : 1 < n) (h2 : n ≤ scale.length) (hlen : 1 ≤ scale.length) :
    get_chart_colors n pt = some ((List.range n).map (fun i : ℕ =>
      scale.getD (⌊(i : ℚ) * ((scale.length : ℚ) - 1) /
        ((n : ℚ) - 1)⌋).toNat "")) := by
  rw [get_chart_colors_seq pt scale hne hst hlk n h2, seqSelect_eq scale n h1 hlen]

/-- Helper: sequential branch result for a single color. -/
theorem chart_seq_first (pt : String) (scale : List String)
    (hne : pt ≠ "categorical")
    (hst : listStarts pt.data "sequential_".data = true)
    (hlk : List.lookup (⟨(splitUnd pt.data).getD 1 []⟩ : String)
      SEQUENTIAL_SCALES = some scale)
    (hlen : 1 ≤ scale.length) :
    get_chart_colors 1 pt = some [scale.getD 0 ""] := by
  rw [get_chart_colors_seq pt scale hne hst hlk 1 hlen, seqSelect_one]

/-- Helper: diverging branch result in floor-index form. -/
theorem chart_div_floor (pt : String) (scale : List String)
    (hne : pt ≠ "categorical")
    (hst : listStarts pt.data "sequential_".data = false)
    (hst2 : listStarts pt.data "diverging_".data = true)
    (hlk : List.lookup (⟨(splitUndOnce pt.data).getD 1 []⟩ : String)
      DIVERGING_SCALES = some scale)
    (n : ℕ) (h1 : 1 < n) (h2 : n ≤ scale.length) (hlen : 1 ≤ scale.length) :
    get_chart_colors n pt = some ((List.range n).map (fun i : ℕ =>
      scale.getD (⌊(i : ℚ) * ((scale.length : ℚ) - 1) /
        ((n : ℚ) - 1)⌋).toNat "")) := by
  rw [get_chart_colors_div pt scale hne hst hst2 hlk n h2,
    seqSelect_eq scale n h1 hlen]

/-- Helper: diverging branch result for a single color. -/
theorem chart_div_first (pt : String) (scale : List String)
    (hne : pt ≠ "categorical")
    (hst : listStarts pt.data "sequential_".data = false)
    (hst2 : listStarts pt.data "diverging_".data = true)
    (hlk : List.lookup (⟨(splitUndOnce pt.data).getD 1 []⟩ : String)
      DIVERGING_SCALES = some scale)
    (hlen : 1 ≤ scale.length) :
    get_chart_colors 1 pt = some [scale.getD 0 ""] := by
  rw [get_chart_colors_div pt scale hne hst hst2 hlk 1 hlen, seqSelect_one]

/-- C5 (amended): for every registered sequential or diverging scale and
`1 < count ≤ len(scale)`, the selected anchor indices are the truncations
(floors) `int(i * (len(scale)-1) / (count-1))` of the evenly spaced
positions — not their roundings — and `count = 1` returns only the first
anchor. -/
theorem C5_even_anchor_selection :
    (∀ name scale, List.lookup name SEQUENTIAL_SCALES = some scale →
      (∀ n, 1 < n → n ≤ scale.length →
        get_chart_colors n ("sequential_" ++ name) =
          some ((List.range n).map (fun i : ℕ =>
            scale.getD (⌊(i : ℚ) * ((scale.length : ℚ) - 1) /
              ((n : ℚ) - 1)⌋).toNat ""))) ∧
      get_chart_colors 1 ("sequential_" ++ name) = some [scale.getD 0 ""]) ∧
    (∀ name scale, List.lookup name DIVERGING_SCALES = some scale →
      (∀ n, 1 < n → n ≤ scale.length →
        get_chart_colors n ("diverging_" ++ name) =
          some ((List.range n).map (fun i : ℕ =>
            scale.getD (⌊(i : ℚ) * ((scale.length : ℚ) - 1) /
              ((n : ℚ) - 1)⌋).toNat ""))) ∧
      get_chart_colors 1 ("diverging_" ++ name) = some [scale.getD 0 ""]) := by
  constructor
  · intro name scale hlk
    rcases seq_lookup_cases name scale hlk with ⟨rfl, rfl⟩ | ⟨rfl, rfl⟩ |
      ⟨rfl, rfl⟩ | ⟨rfl, rfl⟩ <;>
      exact ⟨fun n h1 h2 => chart_seq_floor _ _ (by decide) (by decide)
          (by decide) n h1 h2 (by decide),
        chart_seq_first _ _ (by decide) (by decide) (by decide) (by decide)⟩
  · intro name scale hlk
    rcases div_lookup_cases name scale hlk with ⟨rfl, rfl⟩ | ⟨rfl, rfl⟩ <;>
      exact ⟨fun n h1 h2 => chart_div_floor _ _ (by decide) (by decide)
          (by decide) (by decide) n h1 h2 (by decide),
        chart_div_first _ _ (by decide) (by decide) (by decide) (by decide)
          (by decide)⟩

/-- C5 counterexample: for the registered blue sequential scale and
`count = 4`, the code selects index `int(8/3) = 2` for slot 1 (the color
`#93c5fd`), while the claimed formula `round(8/3) = 3` names `#60a5fa`. -/
theorem C5_round_index_cx :
    get_chart_colors 4 "sequential_blue" =
      some ["#dbeafe", "#93c5fd", "#2563eb", "#1e3a8a"] ∧
    ["#dbeafe", "#93c5fd", "#2563eb", "#1e3a8a"].getD 1 "" ≠
      ["#dbeafe", "#bfdbfe", "#93c5fd", "#60a5fa", "#3b82f6", "#2563eb",
        "#1d4ed8", "#1e40af", "#1e3a8a"].getD
        (round ((1 : ℚ) * ((9 : ℚ) - 1) / ((4 : ℚ) - 1))).toNat "" := by
  constructor
  · rw [chart_seq_floor "sequential_blue"
      ["#dbeafe", "#bfdbfe", "#93c5fd", "#60a5fa", "#3b82f6", "#2563eb",
       "#1d4ed8", "#1e40af", "#1e3a8a"] (by decide) (by decide) (by decide) 4
      (by norm_num) (by decide) (by decide)]
    have hf1 : ⌊(8/3 : ℚ)⌋ = 2 := by
      rw [Int.floor_eq_iff]
      norm_num
    have hf2 : ⌊(16/3 : ℚ)⌋ = 5 := by
      rw [Int.floor_eq_iff]
      norm_num
    have hf3 : ⌊(8 : ℚ)⌋ = 8 := by
      rw [Int.floor_eq_iff]
      norm_num
    norm_num [List.range_succ, List.length_cons, List.length_nil, hf1, hf2, hf3]
    decide
  · have hr : round ((1 : ℚ) * ((9 : ℚ) - 1) / ((4 : ℚ) - 1)) = 3 := by
      rw [round_eq, Int.floor_eq_iff]
      norm_num
    rw [hr]
    decide

/-! Helper lemmas: interpolation. -/

theorem mapOption_cons (f : ℕ → Option String) (a : ℕ) (t : List ℕ) :
    mapOption f (a :: t) =
      match f a, mapOption f t with
      | some c, some cs => some (c :: cs)
      | _, _ => none := rfl

theorem mapOption_eval (f : ℕ → Option String) :
    ∀ l : List ℕ, (∀ i ∈ l, (f i).isSome) →
      mapOption f l = some (l.map (fun i => (f i).getD "")) := by
  intro l
  induction l with
  | nil => intro _; rfl
  | cons a t ih =>
    intro h
    obtain ⟨c, hc⟩ := Option.isSome_iff_exists.mp (h a (by simp))
    have ht := ih (fun i hi => h i (by simp [hi]))
    rw [mapOption_cons, hc, ht]
    simp [hc]

theorem mapOption_range (f : ℕ → Option String) (n : ℕ)
    (h : ∀ i, i < n → (f i).isSome) :
    ∃ res, mapOption f (List.range n) = some res ∧ res.length = n ∧
      ∀ i, i < n → res.getD i "" = (f i).getD "" := by
  refine ⟨(List.range n).map (fun i => (f i).getD ""),
    mapOption_eval f (List.range n) (fun i hi => h i (by simpa using hi)),
    by simp, ?_⟩
  intro i hi
  rw [List.getD_eq_getElem _ _ (by simpa using hi)]
  simp only [List.getElem_map, List.getElem_range]

/-- Helper: a slot whose exact position is the integer `k` returns anchor
`k` unchanged. -/
theorem interpStep_anchor (scale : List String) (n i k : ℕ) (hn : 2 ≤ n)
    (hlen : 1 ≤ scale.length) (hik : i * (scale.length - 1) = k * (n - 1)) :
    interpStep scale n i = some (scale.getD k "") := by
  have hn1 : 1 ≤ n := le_trans (by norm_num) hn
  have hnq : ((n : ℚ) - 1) ≠ 0 := by
    have : (2:ℚ) ≤ (n : ℚ) := by exact_mod_cast hn
    intro e
    nlinarith
  have hpos : (i : ℚ) * ((scale.length : ℚ) - 1) / ((n : ℚ) - 1) = (k : ℚ) := by
    have hc := congrArg (fun m : ℕ => (m : ℚ)) hik
    simp only [Nat.cast_mul, Nat.cast_sub hlen, Nat.cast_sub hn1,
      Nat.cast_one] at hc
    rw [hc, mul_div_assoc, div_self hnq, mul_one]
  unfold interpStep
  dsimp only
  rw [hpos, pytrunc_nonneg _ (Nat.cast_nonneg k), Int.floor_natCast,
    Int.toNat_natCast]
  simp

/-- Helper: every slot below `n` succeeds when every anchor parses. -/
theorem interpStep_isSome (scale : List String) (n i : ℕ) (hn : 2 ≤ n)
    (hlen : 1 ≤ scale.length) (hp : ∀ c ∈ scale, (hex_to_rgb c).isSome)
    (hi : i < n) :
    (interpStep scale n i).isSome := by
  have hn1 : 1 ≤ n := le_trans (by norm_num) hn
  have hq2 : (0:ℚ) < (n : ℚ) - 1 := by
    have : (2:ℚ) ≤ (n : ℚ) := by exact_mod_cast hn
    linarith
  have hL : (0:ℚ) ≤ (scale.length : ℚ) - 1 := by
    have : (1:ℚ) ≤ (scale.length : ℚ) := by exact_mod_cast hlen
    linarith
  have hq0 : (0:ℚ) ≤ (i : ℚ) * ((scale.length : ℚ) - 1) / ((n : ℚ) - 1) :=
    div_nonneg (mul_nonneg (Nat.cast_nonneg i) hL) (le_of_lt hq2)
  have hple : (i : ℚ) * ((scale.length : ℚ) - 1) / ((n : ℚ) - 1) ≤
      (scale.length : ℚ) - 1 := by
    rw [div_le_iff₀ hq2]
    have hi2 : (i : ℚ) ≤ (n : ℚ) - 1 := by
      have : (i : ℚ) + 1 ≤ (n : ℚ) := by exact_mod_cast hi
      linarith
    nlinarith
  have hidx : (pytrunc ((i : ℚ) * ((scale.length : ℚ) - 1) /
      ((n : ℚ) - 1))).toNat ≤ scale.length - 1 := by
    rw [pytrunc_nonneg _ hq0]
    have h1 : ⌊(i : ℚ) * ((scale.length : ℚ) - 1) / ((n : ℚ) - 1)⌋ ≤
        (scale.length : ℤ) - 1 := by
      have h2 := Int.floor_le_floor hple
      rwa [show ⌊(scale.length : ℚ) - 1⌋ = (scale.length : ℤ) - 1 by
        rw [show ((scale.length : ℚ) - 1) = ((scale.length : ℤ) - 1 : ℤ) by
          push_cast; ring, Int.floor_intCast]] at h2
    omega
  unfold interpStep
  dsimp only
  split_ifs with hf
  · rfl
  · have hm1 : (pytrunc ((i : ℚ) * ((scale.length : ℚ) - 1) /
        ((n : ℚ) - 1))).toNat < scale.length := by omega
    have hm2 : min ((pytrunc ((i : ℚ) * ((scale.length : ℚ) - 1) /
        ((n : ℚ) - 1))).toNat + 1) (scale.length - 1) < scale.length := by
      have : scale.length - 1 < scale.length := by omega
      exact lt_of_le_of_lt (min_le_right _ _) this
    have p1 : (hex_to_rgb (scale.getD (pytrunc ((i : ℚ) *
        ((scale.length : ℚ) - 1) / ((n : ℚ) - 1))).toNat "")).isSome := by
      apply hp
      rw [List.getD_eq_getElem _ _ hm1]
      exact List.getElem_mem _
    have p2 : (hex_to_rgb (scale.getD (min ((pytrunc ((i : ℚ) *
        ((scale.length : ℚ) - 1) / ((n : ℚ) - 1))).toNat + 1)
        (scale.length - 1)) "")).isSome := by
      apply hp
      rw [List.getD_eq_getElem _ _ hm2]
      exact List.getElem_mem _
    obtain ⟨r1, hr1⟩ := Option.isSome_iff_exists.mp p1
    obtain ⟨r2, hr2⟩ := Option.isSome_iff_exists.mp p2
    rw [hr1, hr2]
    rfl

/-- C7: interpolation keeps both endpoints exactly, and more generally any
output slot whose position lands exactly on an anchor (fractional part 0)
returns that anchor color unmodified. -/
theorem C7_interpolation_anchors (scale : List String) (n : ℕ)
    (hne : scale ≠ []) (hp : ∀ c ∈ scale, (hex_to_rgb c).isSome)
    (hn : 2 ≤ n) :
    ∃ res, interpolate_colors scale n = some res ∧ res.length = n ∧
      res.getD 0 "" = scale.getD 0 "" ∧
      res.getD (n - 1) "" = scale.getD (scale.length - 1) "" ∧
      ∀ i k : ℕ, i < n → i * (scale.length - 1) = k * (n - 1) →
        res.getD i "" = scale.getD k "" := by
  have hlen : 1 ≤ scale.length := List.length_pos.mpr hne
  obtain ⟨res, hres, hrl, hget⟩ := mapOption_range (interpStep scale n) n
    (fun i hi => interpStep_isSome scale n i hn hlen hp hi)
  refine ⟨res, ?_, hrl, ?_, ?_, ?_⟩
  · unfold interpolate_colors
    rw [if_neg (by omega), if_neg (by omega)]
    exact hres
  · rw [hget 0 (by omega), interpStep_anchor scale n 0 0 hn hlen (by ring)]
    rfl
  · rw [hget (n - 1) (by omega),
      interpStep_anchor scale n (n - 1) (scale.length - 1) hn hlen (by ring)]
    rfl
  · intro i k hi hik
    rw [hget i hi, interpStep_anchor scale n i k hn hlen hik]
    rfl

/-- Witness for C7 on the blue sequential scale with 10 requested colors. -/
theorem C7_interpolation_anchors_witness :
    ∃ res, interpolate_colors ["#dbeafe", "#bfdbfe", "#93c5fd", "#60a5fa",
      "#3b82f6", "#2563eb", "#1d4ed8", "#1e40af", "#1e3a8a"] 10 = some res ∧
      res.length = 10 ∧
      res.getD 0 "" = (["#dbeafe", "#bfdbfe", "#93c5fd", "#60a5fa", "#3b82f6",
        "#2563eb", "#1d4ed8", "#1e40af", "#1e3a8a"] : List String).getD 0 "" ∧
      res.getD (10 - 1) "" = (["#dbeafe", "#bfdbfe", "#93c5fd", "#60a5fa",
        "#3b82f6", "#2563eb", "#1d4ed8", "#1e40af",
        "#1e3a8a"] : List String).getD
        ((["#dbeafe", "#bfdbfe", "#93c5fd", "#60a5fa", "#3b82f6", "#2563eb",
          "#1d4ed8", "#1e40af", "#1e3a8a"] : List String).length - 1) "" ∧
      ∀ i k : ℕ, i < 10 →
        i * ((["#dbeafe", "#bfdbfe", "#93c5fd", "#60a5fa", "#3b82f6",
          "#2563eb", "#1d4ed8", "#1e40af",
          "#1e3a8a"] : List String).length - 1) = k * (10 - 1) →
        res.getD i "" = (["#dbeafe", "#bfdbfe", "#93c5fd", "#60a5fa",
          "#3b82f6", "#2563eb", "#1d4ed8", "#1e40af",
          "#1e3a8a"] : List String).getD k "" :=
  C7_interpolation_anchors ["#dbeafe", "#bfdbfe", "#93c5fd", "#60a5fa",
    "#3b82f6", "#2563eb", "#1d4ed8", "#1e40af", "#1e3a8a"] 10 (by decide)
    (by decide) (by decide)

/-! Helper lemmas: hex parsing of well-formed 6-digit strings. -/

/-- Modelled from the spec's words: the string after stripping one
optional leading `#` (the spec says "an optional leading `#`", where the
code strips every leading `#`). -/
def specStrip (s : String) : List Char :=
  match s.data with
  | [] => []
  | c :: rest => if c = '#' then rest else c :: rest

/-- Modelled from the spec's words: "exactly 6 hex digits after stripping
an optional leading `#`". -/
def SpecSixHex (s : String) : Prop :=
  (specStrip s).length = 6 ∧ ∀ c ∈ specStrip s, (hexVal c).isSome

instance (s : String) : Decidable (SpecSixHex s) := by
  unfold SpecSixHex
  infer_instance

theorem hexVal_facts (c : Char) (d : ℕ) (h : hexVal c = some d) :
    d ≤ 15 ∧ pyWs c = false ∧ ¬(c = '-') ∧ ¬(c = '+') ∧ ¬(c = '_') ∧
      ¬(c = 'x') ∧ ¬(c = 'X') ∧ ¬(c = '#') := by
  have hcn : (48 ≤ c.toNat ∧ c.toNat ≤ 57) ∨ (97 ≤ c.toNat ∧ c.toNat ≤ 102) ∨
      (65 ≤ c.toNat ∧ c.toNat ≤ 70) := by
    unfold hexVal at h
    split_ifs at h with h1 h2 h3
    · exact Or.inl h1
    · exact Or.inr (Or.inl h2)
    · exact Or.inr (Or.inr h3)
  have hd : d ≤ 15 := by
    unfold hexVal at h
    split_ifs at h with h1 h2 h3 <;> injection h with hd <;> omega
  refine ⟨hd, ?_, ?_, ?_, ?_, ?_, ?_, ?_⟩
  · unfold pyWs
    simp only [Bool.or_eq_false_iff, beq_eq_false_iff_ne, ne_eq]
    omega
  all_goals
    intro e
    rw [e] at hcn
    revert hcn
    decide

theorem pyIntHex16_pair (c1 c2 : Char) (d1 d2 : ℕ) (h1 : hexVal c1 = some d1)
    (h2 : hexVal c2 = some d2) :
    pyIntHex16 [c1, c2] = some ((d1 * 16 + d2 : ℕ) : ℤ) := by
  obtain ⟨hd1, hw1, hm1, hp1, hu1, hx1, hX1, _⟩ := hexVal_facts c1 d1 h1
  obtain ⟨hd2, hw2, hm2, hp2, hu2, hx2, hX2, _⟩ := hexVal_facts c2 d2 h2
  have hs : stripWs [c1, c2] = [c1, c2] := by
    unfold stripWs
    simp [List.dropWhile_cons, hw1, hw2]
  unfold pyIntHex16 hexDigits hexTail
  rw [hs]
  simp [hm1, hp1, hu1, hx1, hX1, hu2, hx2, hX2, h1, h2]
  rw [show hexTail [] (d1 * 16 + d2) = some (d1 * 16 + d2) from rfl]
  simp

theorem strip_of_spec (s : String) (l : List Char) (he : specStrip s = l)
    (hne : ∀ c ∈ l, ¬(c = '#')) : pyLstripHash s.data = l := by
  unfold specStrip at he
  unfold pyLstripHash
  cases hs : s.data with
  | nil =>
    rw [hs] at he
    dsimp only at he
    subst he
    rfl
  | cons c rest =>
    rw [hs] at he
    dsimp only at he
    by_cases hc : c = '#'
    · rw [if_pos hc] at he
      rw [List.dropWhile_cons, if_pos (by simp [hc]), he]
      cases l with
      | nil => rfl
      | cons c1 t =>
        rw [List.dropWhile_cons, if_neg (by simp [hne c1 (by simp)])]
    · rw [if_neg hc] at he
      rw [List.dropWhile_cons, if_neg (by simp [hc])]
      exact he

/-- C2 (amended): on any string that is exactly 6 hex digits after
stripping an optional leading `#`, `hex_to_rgb` succeeds with three
integers in `[0, 255]`.  (The converse direction of the original claim is
false: the code does not raise on every other string, see the
counterexample.) -/
theorem C2_hex_parse_amended (s : String) (h : SpecSixHex s) :
    ∃ r g b : ℤ, hex_to_rgb s = some (r, g, b) ∧ 0 ≤ r ∧ r ≤ 255 ∧
      0 ≤ g ∧ g ≤ 255 ∧ 0 ≤ b ∧ b ≤ 255 := by
  obtain ⟨hlen, hhex⟩ := h
  rcases he : specStrip s with _ |
    ⟨c1, _ | ⟨c2, _ | ⟨c3, _ | ⟨c4, _ | ⟨c5, _ |
      ⟨c6, _ | ⟨c7, rest⟩⟩⟩⟩⟩⟩⟩ <;>
    rw [he] at hlen hhex <;> simp at hlen
  obtain ⟨d1, hd1⟩ := Option.isSome_iff_exists.mp (hhex c1 (by simp))
  obtain ⟨d2, hd2⟩ := Option.isSome_iff_exists.mp (hhex c2 (by simp))
  obtain ⟨d3, hd3⟩ := Option.isSome_iff_exists.mp (hhex c3 (by simp))
  obtain ⟨d4, hd4⟩ := Option.isSome_iff_exists.mp (hhex c4 (by simp))
  obtain ⟨d5, hd5⟩ := Option.isSome_iff_exists.mp (hhex c5 (by simp))
  obtain ⟨d6, hd6⟩ := Option.isSome_iff_exists.mp (hhex c6 (by simp))
  have hstrip : pyLstripHash s.data = [c1, c2, c3, c4, c5, c6] := by
    refine strip_of_spec s _ he ?_
    intro c hc
    simp only [List.mem_cons, List.not_mem_nil, or_false] at hc
    rcases hc with rfl | rfl | rfl | rfl | rfl | rfl
    · exact (hexVal_facts _ _ hd1).2.2.2.2.2.2.2
    · exact (hexVal_facts _ _ hd2).2.2.2.2.2.2.2
    · exact (hexVal_facts _ _ hd3).2.2.2.2.2.2.2
    · exact (hexVal_facts _ _ hd4).2.2.2.2.2.2.2
    · exact (hexVal_facts _ _ hd5).2.2.2.2.2.2.2
    · exact (hexVal_facts _ _ hd6).2.2.2.2.2.2.2
  unfold hex_to_rgb
  rw [hstrip]
  dsimp only
  rw [show ([c1, c2, c3, c4, c5, c6].take 2) = [c1, c2] from rfl,
    show (([c1, c2, c3, c4, c5, c6].drop 2).take 2) = [c3, c4] from rfl,
    show (([c1, c2, c3, c4, c5, c6].drop 4).take 2) = [c5, c6] from rfl,
    pyIntHex16_pair c1 c2 d1 d2 hd1 hd2, pyIntHex16_pair c3 c4 d3 d4 hd3 hd4,
    pyIntHex16_pair c5 c6 d5 d6 hd5 hd6]
  have b1 := (hexVal_facts c1 d1 hd1).1
  have b2 := (hexVal_facts c2 d2 hd2).1
  have b3 := (hexVal_facts c3 d3 hd3).1
  have b4 := (hexVal_facts c4 d4 hd4).1
  have b5 := (hexVal_facts c5 d5 hd5).1
  have b6 := (hexVal_facts c6 d6 hd6).1
  refine ⟨_, _, _, rfl, ?_, ?_, ?_, ?_, ?_, ?_⟩ <;> omega

/-- Witness for C2 (amended) at the concrete string `"#1e40af"`. -/
theorem C2_hex_parse_amended_witness :
    ∃ r g b : ℤ, hex_to_rgb "#1e40af" = some (r, g, b) ∧ 0 ≤ r ∧ r ≤ 255 ∧
      0 ≤ g ∧ g ≤ 255 ∧ 0 ≤ b ∧ b ≤ 255 :=
  C2_hex_parse_amended "#1e40af" (by decide)

/-- C2 counterexample: `"#ff0000ff"` is not 6 hex digits after stripping
the optional leading `#` (it has 8), yet `hex_to_rgb` does not raise: the
code reads only the first three 2-character slices and ignores the rest. -/
theorem C2_extra_chars_cx :
    hex_to_rgb "#ff0000ff" = some (255, 0, 0) ∧ ¬ SpecSixHex "#ff0000ff" := by
  constructor <;> decide

/-- C9 counterexample: `rgb_to_hex` neither rounds nor clamps.  Channel
300 is formatted unclamped as three hex digits (an 8-character string),
and channel 0.9 is truncated to 0 rather than rounded to 1. -/
theorem C9_format_cx :
    rgb_to_hex (300, 0, 0) = "#12c0000" ∧
    ("#12c0000" : String).length ≠ 7 ∧
    rgb_to_hex (0.9, 0, 0) = "#000000" ∧ ("#000000" : String) ≠ "#010000" := by
  have t0 : pytrunc (0 : ℚ) = 0 := by
    rw [pytrunc, if_neg (by norm_num)]
    simp
  have t9 : pytrunc (0.9 : ℚ) = 0 := by
    rw [pytrunc, if_neg (by norm_num)]
    rw [Int.floor_eq_iff]
    norm_num
  have t300 : pytrunc (300 : ℚ) = 300 := by
    rw [pytrunc, if_neg (by norm_num)]
    rw [Int.floor_eq_iff]
    norm_num
  refine ⟨?_, by decide, ?_, by decide⟩
  · show (⟨'#' :: (format02x (pytrunc (300:ℚ)) ++ format02x (pytrunc (0:ℚ)) ++
      format02x (pytrunc (0:ℚ)))⟩ : String) = "#12c0000"
    rw [t0, t300]
    decide
  · show (⟨'#' :: (format02x (pytrunc (0.9:ℚ)) ++ format02x (pytrunc (0:ℚ)) ++
      format02x (pytrunc (0:ℚ)))⟩ : String) = "#000000"
    rw [t0, t9]
    decide

/-- C9 (amended): `rgb_to_hex` truncates each channel toward zero (no
rounding) and does not clamp; for channels in `[0, 256)` the result is a
7-character string `#` followed by six lowercase hex digits that parse
back to the truncated channel values. -/
theorem C9_format_amended (r g b : ℚ) (hr0 : 0 ≤ r) (hr1 : r < 256)
    (hg0 : 0 ≤ g) (hg1 : g < 256) (hb0 : 0 ≤ b) (hb1 : b < 256) :
    (rgb_to_hex (r, g, b)).length = 7 ∧
    (rgb_to_hex (r, g, b)).data.head? = some '#' ∧
    hex_to_rgb (rgb_to_hex (r, g, b)) = some (⌊r⌋, ⌊g⌋, ⌊b⌋) := by
  obtain ⟨mr, hmr⟩ := floor_byte r hr0 hr1
  obtain ⟨mg, hmg⟩ := floor_byte g hg0 hg1
  obtain ⟨mb, hmb⟩ := floor_byte b hb0 hb1
  have e : rgb_to_hex (r, g, b) =
      ⟨'#' :: (format02x ((mr : ℕ) : ℤ) ++ format02x ((mg : ℕ) : ℤ) ++
        format02x ((mb : ℕ) : ℤ))⟩ := by
    simp only [rgb_to_hex, pytrunc_nonneg r hr0, pytrunc_nonneg g hg0,
      pytrunc_nonneg b hb0, hmr, hmg, hmb]
  refine ⟨?_, ?_, hexRoundTrip r g b hr0 hr1 hg0 hg1 hb0 hb1⟩
  · rw [e]
    show ('#' :: (format02x ((mr : ℕ) : ℤ) ++ format02x ((mg : ℕ) : ℤ) ++
      format02x ((mb : ℕ) : ℤ))).length = 7
    simp [List.length_append, (hexPairFacts mr).1, (hexPairFacts mg).1,
      (hexPairFacts mb).1]
  · rw [e]
    rfl

/-- Witness for C9 (amended) at the concrete channels `(300/2, 0, 255.7)`. -/
theorem C9_format_amended_witness :
    (rgb_to_hex (300/2, 0, 255.7)).length = 7 ∧
    (rgb_to_hex (300/2, 0, 255.7)).data.head? = some '#' ∧
    hex_to_rgb (rgb_to_hex (300/2, 0, 255.7)) =
      some (⌊(300/2 : ℚ)⌋, ⌊(0 : ℚ)⌋, ⌊(255.7 : ℚ)⌋) :=
  C9_format_amended (300/2) 0 255.7 (by norm_num) (by norm_num) (by norm_num)
    (by norm_num) (by norm_num) (by norm_num)

/-! Helper lemmas: AAA accessibility against a white background. -/

theorem aaa_on_white (t : ℤ × ℤ × ℤ) (h0 : 0 ≤ get_luminance_rgb t)
    (h1 : get_luminance_rgb t < 1) :
    is_accessible_rgb t (255, 255, 255) "AAA" ↔
      get_luminance_rgb t ≤ 1/10 := by
  rw [accessAAA]
  show contrast_of (get_luminance_rgb t) (get_luminance_rgb (255, 255, 255)) ≥
    7.0 ↔ _
  rw [lum_white]
  unfold contrast_of
  rw [if_pos h1, ge_iff_le, le_div_iff₀ (by linarith)]
  constructor <;> intro <;> linarith

theorem cc3333_not_AAA :
    ¬ is_accessible_rgb (204, 51, 51) (255, 255, 255) "AAA" := by
  rw [aaa_on_white _ (by linarith [lum_cc3333.1]) lum_cc3333.2]
  exact not_le.mpr lum_cc3333.1

theorem b72d2d_not_AAA :
    ¬ is_accessible_rgb (183, 45, 45) (255, 255, 255) "AAA" := by
  rw [aaa_on_white _ (by linarith [lum_b72d2d.1]) lum_b72d2d.2]
  exact not_le.mpr lum_b72d2d.1

theorem a32828_is_AAA :
    is_accessible_rgb (163, 40, 40) (255, 255, 255) "AAA" :=
  (aaa_on_white _ (lum_nonneg _ (by norm_num) (by norm_num) (by norm_num))
    lum_a32828.2).mpr lum_a32828.1

/-! Helper lemmas: the concrete search trace for `#cc3333` on white. -/

theorem floor_third : ⌊(1/3 : ℚ)⌋ = 0 := by
  rw [Int.floor_eq_iff]
  norm_num

theorem floor_neg_third : ⌊(-(1/3) : ℚ)⌋ = -1 := by
  rw [Int.floor_eq_iff]
  norm_num

theorem hls_cc3333 :
    rgb_to_hls ((204:ℚ)/255) ((51:ℚ)/255) ((51:ℚ)/255) = (0, 1/2, 3/5) := by
  unfold rgb_to_hls
  dsimp only
  norm_num [max_def, min_def]

theorem hls_step1 : hls_to_rgb 0 (9/20) (3/5) = (18/25, 9/50, 9/50) := by
  unfold hls_to_rgb _v
  dsimp only
  norm_num [floor_third, floor_neg_third]

theorem hls_step2 : hls_to_rgb 0 (2/5) (3/5) = (16/25, 4/25, 4/25) := by
  unfold hls_to_rgb _v
  dsimp only
  norm_num [floor_third, floor_neg_third]

theorem hexenc1 :
    rgb_to_hex ((18/25 : ℚ) * 255, (9/50 : ℚ) * 255, (9/50 : ℚ) * 255) =
      "#b72d2d" := by
  have t1 : pytrunc ((18/25 : ℚ) * 255) = 183 := by
    rw [pytrunc, if_neg (by norm_num), Int.floor_eq_iff]
    norm_num
  have t2 : pytrunc ((9/50 : ℚ) * 255) = 45 := by
    rw [pytrunc, if_neg (by norm_num), Int.floor_eq_iff]
    norm_num
  show (⟨'#' :: (format02x (pytrunc ((18/25 : ℚ) * 255)) ++
    format02x (pytrunc ((9/50 : ℚ) * 255)) ++
    format02x (pytrunc ((9/50 : ℚ) * 255)))⟩ : String) = "#b72d2d"
  rw [t1, t2]
  decide

theorem hexenc2 :
    rgb_to_hex ((16/25 : ℚ) * 255, (4/25 : ℚ) * 255, (4/25 : ℚ) * 255) =
      "#a32828" := by
  have t1 : pytrunc ((16/25 : ℚ) * 255) = 163 := by
    rw [pytrunc, if_neg (by norm_num), Int.floor_eq_iff]
    norm_num
  have t2 : pytrunc ((4/25 : ℚ) * 255) = 40 := by
    rw [pytrunc, if_neg (by norm_num), Int.floor_eq_iff]
    norm_num
  show (⟨'#' :: (format02x (pytrunc ((16/25 : ℚ) * 255)) ++
    format02x (pytrunc ((4/25 : ℚ) * 255)) ++
    format02x (pytrunc ((4/25 : ℚ) * 255)))⟩ : String) = "#a32828"
  rw [t1, t2]
  decide

theorem darken_trace :
    darkenLoop 0 (3/5) "#ffffff" "AAA" (1/2) 10 = some (some "#a32828") := by
  have hq : hex_to_rgb "#ffffff" = some (255, 255, 255) := by decide
  have hparse1 : hex_to_rgb "#b72d2d" = some (183, 45, 45) := by decide
  have hparse2 : hex_to_rgb "#a32828" = some (163, 40, 40) := by decide
  have hl1 : max (0:ℚ) (1/2 - 0.05) = 9/20 := by
    rw [max_def, if_pos (by norm_num)]
    norm_num
  have hl2 : max (0:ℚ) (9/20 - 0.05) = 2/5 := by
    rw [max_def, if_pos (by norm_num)]
    norm_num
  rw [darkenLoop_succ]
  dsimp only
  rw [hl1, hls_step1]
  dsimp only
  rw [hexenc1, hparse1, hq]
  dsimp only
  rw [if_neg b72d2d_not_AAA]
  rw [darkenLoop_succ]
  dsimp only
  rw [hl2, hls_step2]
  dsimp only
  rw [hexenc2, hparse2, hq]
  dsimp only
  rw [if_pos a32828_is_AAA]

/-- C8 counterexample: searching from `#cc3333` (HLS saturation 3/5) on
white at level AAA returns the adjusted variant `#a32828` after two steps,
but the returned color's own saturation is 123/203, not 3/5: the 8-bit
truncation in `rgb_to_hex` shifts the saturation, so hue/saturation of
the returned color do not equal the input's exactly. -/
theorem C8_saturation_cx :
    get_accessible_variant "#cc3333" "#ffffff" "AAA" = some "#a32828" ∧
    ¬ ((rgb_to_hls ((163:ℚ)/255) ((40:ℚ)/255) ((40:ℚ)/255)).2.2 =
      (rgb_to_hls ((204:ℚ)/255) ((51:ℚ)/255) ((51:ℚ)/255)).2.2) := by
  constructor
  · have hp : hex_to_rgb "#cc3333" = some (204, 51, 51) := by decide
    have hq : hex_to_rgb "#ffffff" = some (255, 255, 255) := by decide
    unfold get_accessible_variant
    rw [hp, hq]
    dsimp only
    rw [if_neg cc3333_not_AAA]
    rw [show (((204:ℤ) : ℚ)) / 255 = (204:ℚ)/255 by norm_num,
      show (((51:ℤ) : ℚ)) / 255 = (51:ℚ)/255 by norm_num, hls_cc3333]
    dsimp only
    rw [lum_white, if_pos (by norm_num : (1:ℝ) > 0.5), darken_trace]
  · rw [rgb_to_hls_s, rgb_to_hls_s]
    norm_num [max_def, min_def]

/-- C8 (amended): whenever the search returns an adjusted variant, that
variant is the hex encoding of `hls_to_rgb(h, l2, s)` for some lightness
`l2`, where `h` and `s` are exactly the input color's HLS hue and
saturation: hue and saturation are preserved exactly through the search
itself, up to the final 8-bit truncation of `rgb_to_hex` (which may shift
the re-parsed hue/saturation of the returned string slightly). -/
theorem C8_hue_saturation_amended (color background level : String)
    (p q : ℤ × ℤ × ℤ) (hp : hex_to_rgb color = some p)
    (hq : hex_to_rgb background = some q) (hr : RGBInRange p) :
    ∃ c2, get_accessible_variant color background level = some c2 ∧
      (c2 = color ∨ c2 = "#000000" ∨ c2 = "#ffffff" ∨
        ∃ l2, c2 = rgb_to_hex
          ((hls_to_rgb (rgb_to_hls ((p.1 : ℚ) / 255) ((p.2.1 : ℚ) / 255)
              ((p.2.2 : ℚ) / 255)).1 l2
            (rgb_to_hls ((p.1 : ℚ) / 255) ((p.2.1 : ℚ) / 255)
              ((p.2.2 : ℚ) / 255)).2.2).1 * 255,
           (hls_to_rgb (rgb_to_hls ((p.1 : ℚ) / 255) ((p.2.1 : ℚ) / 255)
              ((p.2.2 : ℚ) / 255)).1 l2
            (rgb_to_hls ((p.1 : ℚ) / 255) ((p.2.1 : ℚ) / 255)
              ((p.2.2 : ℚ) / 255)).2.2).2.1 * 255,
           (hls_to_rgb (rgb_to_hls ((p.1 : ℚ) / 255) ((p.2.1 : ℚ) / 255)
              ((p.2.2 : ℚ) / 255)).1 l2
            (rgb_to_hls ((p.1 : ℚ) / 255) ((p.2.1 : ℚ) / 255)
              ((p.2.2 : ℚ) / 255)).2.2).2.2 * 255)) := by
  unfold get_accessible_variant
  rw [hp, hq]
  dsimp only
  by_cases hacc : is_accessible_rgb p q level
  · rw [if_pos hacc]
    exact ⟨color, rfl, Or.inl rfl⟩
  · rw [if_neg hacc]
    obtain ⟨hr1, hr2, hr3, hr4, hr5, hr6⟩ := hr
    have c10 : (0:ℚ) ≤ (p.1 : ℚ) / 255 := by
      have : (0:ℚ) ≤ (p.1 : ℚ) := by exact_mod_cast hr1
      positivity
    have c11 : (p.1 : ℚ) / 255 ≤ 1 := by
      rw [div_le_one (by norm_num)]
      exact_mod_cast hr2
    have c20 : (0:ℚ) ≤ (p.2.1 : ℚ) / 255 := by
      have : (0:ℚ) ≤ (p.2.1 : ℚ) := by exact_mod_cast hr3
      positivity
    have c21 : (p.2.1 : ℚ) / 255 ≤ 1 := by
      rw [div_le_one (by norm_num)]
      exact_mod_cast hr4
    have c30 : (0:ℚ) ≤ (p.2.2 : ℚ) / 255 := by
      have : (0:ℚ) ≤ (p.2.2 : ℚ) := by exact_mod_cast hr5
      positivity
    have c31 : (p.2.2 : ℚ) / 255 ≤ 1 := by
      rw [div_le_one (by norm_num)]
      exact_mod_cast hr6
    obtain ⟨⟨hl0, hl1⟩, hs0, hs1⟩ :=
      rgb_to_hls_bounds ((p.1 : ℚ) / 255) ((p.2.1 : ℚ) / 255) ((p.2.2 : ℚ) / 255)
        c10 c11 c20 c21 c30 c31
    by_cases hlum : get_luminance_rgb q > 0.5
    · rw [if_pos hlum]
      obtain ⟨r, hr', hprop⟩ := darkenLoop_spec
        (rgb_to_hls ((p.1 : ℚ) / 255) ((p.2.1 : ℚ) / 255) ((p.2.2 : ℚ) / 255)).1
        (rgb_to_hls ((p.1 : ℚ) / 255) ((p.2.1 : ℚ) / 255) ((p.2.2 : ℚ) / 255)).2.2
        background level q hq hs0 hs1 10
        (rgb_to_hls ((p.1 : ℚ) / 255) ((p.2.1 : ℚ) / 255) ((p.2.2 : ℚ) / 255)).2.1
        hl0 hl1
      rw [hr']
      cases r with
      | some c =>
        obtain ⟨l2, hl2⟩ := (hprop c rfl).2
        exact ⟨c, rfl, Or.inr (Or.inr (Or.inr ⟨l2, hl2⟩))⟩
      | none => exact ⟨"#000000", rfl, Or.inr (Or.inl rfl)⟩
    · rw [if_neg hlum]
      obtain ⟨r, hr', hprop⟩ := lightenLoop_spec
        (rgb_to_hls ((p.1 : ℚ) / 255) ((p.2.1 : ℚ) / 255) ((p.2.2 : ℚ) / 255)).1
        (rgb_to_hls ((p.1 : ℚ) / 255) ((p.2.1 : ℚ) / 255) ((p.2.2 : ℚ) / 255)).2.2
        background level q hq hs0 hs1 10
        (rgb_to_hls ((p.1 : ℚ) / 255) ((p.2.1 : ℚ) / 255) ((p.2.2 : ℚ) / 255)).2.1
        hl0 hl1
      rw [hr']
      cases r with
      | some c =>
        obtain ⟨l2, hl2⟩ := (hprop c rfl).2
        exact ⟨c, rfl, Or.inr (Or.inr (Or.inr ⟨l2, hl2⟩))⟩
      | none => exact ⟨"#ffffff", rfl, Or.inr (Or.inr (Or.inl rfl))⟩

/-- Witness for C8 (amended) at the concrete input
`("#dc2626", "#ffffff", "AA")`. -/
theorem C8_hue_saturation_amended_witness :
    ∃ c2, get_accessible_variant "#dc2626" "#ffffff" "AA" = some c2 ∧
      (c2 = "#dc2626" ∨ c2 = "#000000" ∨ c2 = "#ffffff" ∨
        ∃ l2, c2 = rgb_to_hex
          ((hls_to_rgb (rgb_to_hls (((220:ℤ) : ℚ) / 255) (((38:ℤ) : ℚ) / 255)
              (((38:ℤ) : ℚ) / 255)).1 l2
            (rgb_to_hls (((220:ℤ) : ℚ) / 255) (((38:ℤ) : ℚ) / 255)
              (((38:ℤ) : ℚ) / 255)).2.2).1 * 255,
           (hls_to_rgb (rgb_to_hls (((220:ℤ) : ℚ) / 255) (((38:ℤ) : ℚ) / 255)
              (((38:ℤ) : ℚ) / 255)).1 l2
            (rgb_to_hls (((220:ℤ) : ℚ) / 255) (((38:ℤ) : ℚ) / 255)
              (((38:ℤ) : ℚ) / 255)).2.2).2.1 * 255,
           (hls_to_rgb (rgb_to_hls (((220:ℤ) : ℚ) / 255) (((38:ℤ) : ℚ) / 255)
              (((38:ℤ) : ℚ) / 255)).1 l2
            (rgb_to_hls (((220:ℤ) : ℚ) / 255) (((38:ℤ) : ℚ) / 255)
              (((38:ℤ) : ℚ) / 255)).2.2).2.2 * 255)) :=
  C8_hue_saturation_amended "#dc2626" "#ffffff" "AA" (220, 38, 38)
    (255, 255, 255) (by decide) (by decide) (by decide)
